import Mathlib

/-!
Verification development for the snmpgo SNMP client core (`client.go`).

The definitions below are a shallow embedding of the Go source.  Pure logic is
translated function-by-function; network I/O is represented by an explicit
transport parameter (a function from request PDU to response PDU) so that the
control flow of the Go code around it is preserved.  Machine integers are
modelled as `Int`/`Nat` with explicit bounds where the source checks them.
Helper routines of the library whose sources are not part of this snapshot
(OID ordering, var-bind Sort/Uniq, BER primitives, hex engine ids) are marked
`Modelled from the spec:` in their doc comments and follow the specification
text.
-/

namespace Snmpgo

/-! ## Basic numeric constants -/

/-- `math.MaxInt32`, the bound used by the argument range checks. -/
def maxInt32 : Int := 2147483647

/-- `math.MaxInt64`, the clamping bound of `strconv.Atoi` on 64-bit Go. -/
def maxInt64 : Int := 9223372036854775807

/-! ## SNMP versions

Modelled from the spec: `version ∈ {V1, V2c, V3}` with the standard wire
values 0, 1 and 3; the source compares versions with `<` and `>` on these
values (`s.args.Version < V2c`, `s.args.Version > V1`). -/

inductive SNMPVersion where
  | V1
  | V2c
  | V3
deriving DecidableEq, Repr

/-- Numeric value of a version, used for the order comparisons in the source. -/
def SNMPVersion.toInt : SNMPVersion → Int
  | .V1 => 0
  | .V2c => 1
  | .V3 => 3

/-! ## OIDs and their lexicographic order

Modelled from the spec: "OID — an ordered sequence of non-negative integers
(sub-identifiers) ... Total-ordered lexicographically.  Supports prefix
("contains") queries." -/

/-- An OID is a list of sub-identifiers. -/
abbrev Oid := List Nat

/-- Strict lexicographic order on OIDs. -/
def oidLt : Oid → Oid → Bool
  | [], [] => false
  | [], _ :: _ => true
  | _ :: _, [] => false
  | a :: as, b :: bs => a < b || (a == b && oidLt as bs)

/-- Non-strict lexicographic order on OIDs. -/
def oidLe (a b : Oid) : Bool := oidLt a b || a == b

/-- `base` is an initial segment of `x` (the spec's "contains"/prefix query). -/
def oidHasBase : Oid → Oid → Bool
  | [], _ => true
  | _ :: _, [] => false
  | b :: bs, y :: ys => b == y && oidHasBase bs ys

/-! ## Variables and var-binds -/

/-- The tagged sum of SNMP variable values (spec §3 "Variable"). -/
inductive Variable where
  | vInteger (v : Int)
  | vOctetString (bs : List Nat)
  | vNull
  | vOid (o : Oid)
  | vIpAddress (b0 b1 b2 b3 : Nat)
  | vCounter32 (v : Nat)
  | vGauge32 (v : Nat)
  | vTimeTicks (v : Nat)
  | vCounter64 (v : Nat)
  | vOpaque (bs : List Nat)
  | noSucheObject
  | noSucheInstance
  | endOfMibView
deriving DecidableEq, Repr

/-- The response exception sentinels, exactly the types matched by the
`switch val.Variable.(type)` in `GetBulkWalk` (client.go:247-249). -/
def Variable.isErrSentinel : Variable → Bool
  | .noSucheObject => true
  | .noSucheInstance => true
  | .endOfMibView => true
  | _ => false

/-- A var-bind pairs an OID with a variable (`VarBind` in the source; the
source's field `Variable` is named `vbVariable` here). -/
structure VarBind where
  oid : Oid
  vbVariable : Variable
deriving DecidableEq, Repr

/-- Insert into a list sorted by OID (helper of `sortBinds`). -/
def insertBind (v : VarBind) : List VarBind → List VarBind
  | [] => [v]
  | w :: rest => if oidLe v.oid w.oid then v :: w :: rest else w :: insertBind v rest

/-- Modelled from the spec: `VarBinds ... Sort (by OID)` — a sort of the
var-bind list by OID (insertion sort; the spec fixes only the ordering). -/
def sortBinds : List VarBind → List VarBind
  | [] => []
  | v :: rest => insertBind v (sortBinds rest)

/-- Modelled from the spec: `Uniq (remove consecutive duplicate OIDs)`; the
first bind of a run of equal OIDs is kept.  Written with explicit fuel so the
definition is structural (`uniqBinds` instantiates the fuel). -/
def uniqBindsFuel : Nat → List VarBind → List VarBind
  | 0, l => l
  | _, [] => []
  | _, [v] => [v]
  | f + 1, v :: w :: rest =>
    if v.oid == w.oid then uniqBindsFuel f (v :: rest)
    else v :: uniqBindsFuel f (w :: rest)

/-- Modelled from the spec: `Uniq` on var-binds (see `uniqBindsFuel`). -/
def uniqBinds (l : List VarBind) : List VarBind := uniqBindsFuel l.length l

/-- Modelled from the spec: `MatchBaseOids(prefix)` — the binds whose OID lies
under the given base. -/
def matchBaseOids (l : List VarBind) (base : Oid) : List VarBind :=
  l.filter (fun vb => oidHasBase base vb.oid)

/-- Modelled from the spec: `MatchOid(exact)` — the first bind with exactly
the given OID, if any. -/
def matchOid (l : List VarBind) (o : Oid) : Option VarBind :=
  l.find? (fun vb => vb.oid == o)

/-- Insert into an OID list sorted lexicographically (helper of `sortOids`). -/
def insertOid (o : Oid) : List Oid → List Oid
  | [] => [o]
  | p :: rest => if oidLe o p then o :: p :: rest else p :: insertOid o rest

/-- Modelled from the spec: `oids.Sort()` — sort an OID list. -/
def sortOids : List Oid → List Oid
  | [] => []
  | o :: rest => insertOid o (sortOids rest)

/-- Modelled from the spec: `UniqBase` / "uniqueByPrefix" — on a sorted OID
list, drop an OID whose predecessor is a base of it (fuel-structural). -/
def uniqBaseFuel : Nat → List Oid → List Oid
  | 0, l => l
  | _, [] => []
  | _, [o] => [o]
  | f + 1, o :: p :: rest =>
    if oidHasBase o p then uniqBaseFuel f (o :: rest)
    else o :: uniqBaseFuel f (p :: rest)

/-- Modelled from the spec: `UniqBase` (see `uniqBaseFuel`). -/
def uniqBase (l : List Oid) : List Oid := uniqBaseFuel l.length l

/-! ## PDUs -/

/-- PDU types (spec §4.1 codec table). -/
inductive PduType where
  | getRequest
  | getNextRequest
  | getResponse
  | setRequest
  | trapV1
  | getBulkRequest
  | informRequest
  | snmpTrapV2
  | report
deriving DecidableEq, Repr

/-- A v2 PDU.  Modelled from the spec: "PDU — { type, request-id, error-status,
error-index, var-bind list }.  GetBulk repurposes error-status/error-index as
non-repeaters and max-repetitions", so `SetNonrepeaters`/`SetMaxRepetitions`
write the `errorStatus`/`errorIndex` fields. -/
structure Pdu where
  pduType : PduType
  requestId : Int
  errorStatus : Int
  errorIndex : Int
  varBinds : List VarBind
deriving DecidableEq, Repr

/-- `NoError` error status. -/
def noError : Int := 0

/-- `NoSuchName` error status (RFC 3416 value 2). -/
def noSuchName : Int := 2

/-- Modelled from the spec: `NewPduWithOids` builds a request PDU whose
var-binds carry the OIDs with Null values. -/
def newPduWithOids (t : PduType) (oids : List Oid) : Pdu :=
  { pduType := t, requestId := 0, errorStatus := 0, errorIndex := 0,
    varBinds := oids.map (fun o => { oid := o, vbVariable := .vNull }) }

/-- Modelled from the spec: `NewPduWithVarBinds` builds a PDU with the given
var-bind list. -/
def newPduWithVarBinds (t : PduType) (vbs : List VarBind) : Pdu :=
  { pduType := t, requestId := 0, errorStatus := 0, errorIndex := 0, varBinds := vbs }

/-- The error taxonomy visible to the embedded client operations.
`argumentError` corresponds to the source's `ArgumentError`; `genError`
stands for any other (transport level) failure. -/
inductive SnmpError where
  | argumentError (msg : String)
  | genError
deriving DecidableEq, Repr

/-! ## GetBulkRequest (client.go:175-201) -/

/-- Embedding of `SNMP.GetBulkRequest`.  The network round trip performed by
`sendPdu` is abstracted as `transport`; everything before it is the literal
argument validation of the source. -/
def getBulkRequestF (version : SNMPVersion) (transport : Pdu → Except SnmpError Pdu)
    (oids : List Oid) (nonRepeaters maxRepetitions : Int) : Except SnmpError Pdu :=
  if version.toInt < SNMPVersion.V2c.toInt then
    .error (.argumentError "Unsupported SNMP Version")
  else if nonRepeaters < 0 ∨ nonRepeaters > maxInt32 then
    .error (.argumentError "NonRepeaters is range 0..2147483647")
  else if maxRepetitions < 0 ∨ maxRepetitions > maxInt32 then
    .error (.argumentError "NonRepeaters is range 0..2147483647")
  else
    let pdu := newPduWithOids .getBulkRequest oids
    transport { pdu with errorStatus := nonRepeaters, errorIndex := maxRepetitions }

/-! ## GetBulkWalk (client.go:206-272) -/

/-- The mutable local state of the `GetBulkWalk` loop. -/
structure WalkState where
  oids : List Oid
  reqOids : List Oid
  nonRepeaters : Int
  nonRepBinds : List VarBind
  resBinds : List VarBind
deriving DecidableEq, Repr

/-- Result of the embedded walk.  `.ok pdu` is the source's `(pdu, nil)`
return (both the synthesized response and the raw early-returned PDU);
`.err` is `(nil, err)`; `.panicked` marks a Go runtime panic (out-of-range
slice expression); `.outOfFuel` only signals insufficient fuel of the
embedding, never a behaviour of the source. -/
inductive WalkResult where
  | ok (pdu : Pdu)
  | err (e : SnmpError)
  | panicked
  | outOfFuel
deriving DecidableEq, Repr

/-- The inner `for _, val := range matched` loop of `GetBulkWalk`
(client.go:246-254): threads `hasError`, the running `reqOids[i]` value and
`resBinds` through the matched var-binds. -/
def procMatchedGo : List VarBind → Bool → Oid → List VarBind → Bool × Oid × List VarBind
  | [], hasError, reqOid, resBinds => (hasError, reqOid, resBinds)
  | v :: rest, hasError, reqOid, resBinds =>
    if v.vbVariable.isErrSentinel then procMatchedGo rest true reqOid resBinds
    else procMatchedGo rest hasError v.oid (resBinds ++ [v])

/-- The body of `for i, _ := range reqOids` for one position
(client.go:236-258).  Returns the new `reqOids[i]` (`none` encodes the
source's `reqOids[i] = nil`) and the updated `resBinds`. -/
def processPos (filled : Bool) (maxRepetitions : Int) (varBinds : List VarBind)
    (resBinds : List VarBind) (base reqOid : Oid) : Option Oid × List VarBind :=
  let matched := matchBaseOids varBinds base
  let mLength := matched.length
  if mLength = 0 then (none, resBinds)
  else if (matchOid resBinds ((matched.getLastD { oid := [], vbVariable := .vNull }).oid)).isSome then
    (none, resBinds)
  else
    let r := procMatchedGo matched false reqOid resBinds
    if r.1 = true ∨ (filled = true ∧ (mLength : Int) < maxRepetitions) then (none, r.2.2)
    else (some r.2.1, r.2.2)

/-- All positions of the `for i, _ := range reqOids` loop, threading
`resBinds` left to right; the input pairs are `(oids[i], reqOids[i])`. -/
def processAllPos (filled : Bool) (maxRepetitions : Int) (varBinds : List VarBind) :
    List (Oid × Oid) → List VarBind → List (Oid × Option Oid) × List VarBind
  | [], resBinds => ([], resBinds)
  | (base, reqOid) :: rest, resBinds =>
    let r := processPos filled maxRepetitions varBinds resBinds base reqOid
    let t := processAllPos filled maxRepetitions varBinds rest r.2
    ((base, r.1) :: t.1, t.2)

/-- The `for len(reqOids) > 0` loop of `GetBulkWalk` (client.go:213-268),
with explicit fuel for termination.  `query` is `s.GetBulkRequest`. -/
def walkLoop (query : List Oid → Int → Int → Except SnmpError Pdu)
    (maxRepetitions : Int) : Nat → WalkState → WalkResult
  | fuel, st =>
    if st.reqOids = [] then
      .ok (newPduWithVarBinds .getResponse (st.nonRepBinds ++ uniqBinds (sortBinds st.resBinds)))
    else
      match fuel with
      | 0 => .outOfFuel
      | fuel + 1 =>
        match query st.reqOids st.nonRepeaters maxRepetitions with
        | .error e => .err e
        | .ok pdu =>
          if pdu.errorStatus ≠ noError ∧
              (pdu.errorStatus ≠ noSuchName ∨ pdu.errorIndex ≤ st.nonRepeaters) then
            .ok pdu
          else
            let varBinds := pdu.varBinds
            -- `varBinds[:nonRepeaters]` / `oids[nonRepeaters:]` are Go slice
            -- expressions; an index beyond the length panics.
            if st.nonRepeaters > 0 ∧
                ((varBinds.length : Int) < st.nonRepeaters ∨
                 (st.reqOids.length : Int) < st.nonRepeaters ∨
                 (st.oids.length : Int) < st.nonRepeaters) then
              .panicked
            else
              let n := st.nonRepeaters.toNat
              let st1 : WalkState :=
                if st.nonRepeaters > 0 then
                  { st with nonRepBinds := st.nonRepBinds ++ varBinds.take n,
                            oids := st.oids.drop n,
                            reqOids := st.reqOids.drop n,
                            nonRepeaters := 0 }
                else st
              let varBinds1 := if st.nonRepeaters > 0 then varBinds.drop n else varBinds
              let filled : Bool :=
                (varBinds1.length : Int) == (st1.reqOids.length : Int) * maxRepetitions
              let varBinds2 := uniqBinds (sortBinds varBinds1)
              let pr := processAllPos filled maxRepetitions varBinds2
                (st1.oids.zip st1.reqOids) st1.resBinds
              -- sweep completed oids (client.go:262-267)
              let kept := pr.1.filterMap (fun bp => bp.2.map (fun r => (bp.1, r)))
              walkLoop query maxRepetitions fuel
                { oids := kept.map (fun bp => bp.1),
                  reqOids := kept.map (fun bp => bp.2),
                  nonRepeaters := st1.nonRepeaters,
                  nonRepBinds := st1.nonRepBinds,
                  resBinds := pr.2 }

/-- Embedding of `SNMP.GetBulkWalk`.  The initial
`oids = append(oids[:nonRepeaters], oids[nonRepeaters:].Sort().UniqBase()...)`
(client.go:209) panics when `nonRepeaters` is outside `0..len(oids)` (the
backing lists of the embedding have capacity equal to their length). -/
def getBulkWalk (version : SNMPVersion) (transport : Pdu → Except SnmpError Pdu)
    (oids : List Oid) (nonRepeaters maxRepetitions : Int) (fuel : Nat) : WalkResult :=
  if nonRepeaters < 0 ∨ nonRepeaters > (oids.length : Int) then .panicked
  else
    let n := nonRepeaters.toNat
    let oids1 := oids.take n ++ uniqBase (sortOids (oids.drop n))
    walkLoop (getBulkRequestF version transport) maxRepetitions fuel
      { oids := oids1, reqOids := oids1, nonRepeaters := nonRepeaters,
        nonRepBinds := [], resBinds := [] }

/-! ## Simulated agent (spec §8 "Walk completeness")

Modelled from the spec: "For a simulated agent whose MIB contains a known
finite set of OIDs under prefix P, `GetBulkWalk([P], 0, k)` returns exactly
that set".  The agent stores a finite var-bind list sorted by OID; a
GetBulkRequest with one var-bind and no non-repeaters is answered with up to
`maxRepetitions` lexicographic successors of the requested OID, followed by
an `EndOfMibView` sentinel when the MIB is exhausted before the repetition
count (RFC 3416 §4.2.3).  The walk under verification only ever issues
single-OID requests, so other request shapes answer with a transport error. -/

/-- The agent's var-binds strictly after `o` in OID order. -/
def simAgentSucc (mib : List VarBind) (o : Oid) : List VarBind :=
  mib.filter (fun vb => oidLt o vb.oid)

/-- One GetBulk answer of the simulated agent for a single requested OID. -/
def simAgentBulk (mib : List VarBind) (o : Oid) (maxRepetitions : Int) : List VarBind :=
  let s := simAgentSucc mib o
  if (s.length : Int) ≥ maxRepetitions then s.take maxRepetitions.toNat
  else
    s ++ [{ oid := (s.getLastD { oid := o, vbVariable := .vNull }).oid ++ [0],
            vbVariable := .endOfMibView }]

/-- The simulated agent as a transport: answers a GetBulkRequest PDU. -/
def simAgentTransport (mib : List VarBind) : Pdu → Except SnmpError Pdu := fun pdu =>
  match pdu.varBinds with
  | [vb] => .ok { pduType := .getResponse, requestId := pdu.requestId,
                  errorStatus := 0, errorIndex := 0,
                  varBinds := simAgentBulk mib vb.oid pdu.errorIndex }
  | _ => .error .genError

/-! ## Client configuration and validation (client.go:14-122, 433-440) -/

/-- Security levels (spec §6): ordered `NoAuthNoPriv < AuthNoPriv < AuthPriv`;
the source compares them with `>`. -/
inductive SecurityLevel where
  | NoAuthNoPriv
  | AuthNoPriv
  | AuthPriv
deriving DecidableEq, Repr

/-- Numeric value of a security level for the source's `>` comparisons. -/
def SecurityLevel.toNat : SecurityLevel → Nat
  | .NoAuthNoPriv => 0
  | .AuthNoPriv => 1
  | .AuthPriv => 2

/-- Authentication protocols (spec §6): `Md5`, `Sha`; `AuthOther` stands for
every other value of the underlying string type, including the zero value. -/
inductive AuthProtocol where
  | Md5
  | Sha
  | AuthOther
deriving DecidableEq, Repr

/-- Privacy protocols (spec §6): `Des`, `Aes`, `Aes192`, `Aes256`;
`PrivOther` stands for every other value, including the zero value. -/
inductive PrivProtocol where
  | Des
  | Aes
  | Aes192
  | Aes256
  | PrivOther
deriving DecidableEq, Repr

/-- RFC 3412 minimum message size, the lower bound of `MessageMaxSize`
(spec §6: "valid range 484..2^31-1"). -/
def msgSizeMinimum : Int := 484

/-- Default `MessageMaxSize` (spec §6: default 1400). -/
def msgSizeDefault : Int := 1400

/-- Default timeout (spec §6: 5 s); the unit is irrelevant to the claims. -/
def timeoutDefault : Int := 5000

/-- `SNMPArguments` (client.go:15-35).  The two lowercase fields
`authEngineBoots`/`authEngineTime` are the hidden per-call override slots.
Field defaults are the Go zero values. -/
structure SNMPArguments where
  Version : SNMPVersion := .V1
  Network : String := ""
  Address : String := ""
  Timeout : Int := 0
  Retries : Nat := 0
  MessageMaxSize : Int := 0
  Community : String := ""
  UserName : String := ""
  SecurityLevel : SecurityLevel := .NoAuthNoPriv
  AuthPassword : String := ""
  AuthProtocol : AuthProtocol := .AuthOther
  PrivPassword : String := ""
  PrivProtocol : PrivProtocol := .PrivOther
  SecurityEngineId : String := ""
  ContextEngineId : String := ""
  ContextName : String := ""
  authEngineBoots : Int := 0
  authEngineTime : Int := 0
deriving DecidableEq, Repr

/-- Modelled from the spec: "when accepted from configuration in hex form, an
optional `0x` prefix is stripped" (`stripHexPrefix` in the source, which is
not part of this snapshot). -/
def stripHex0x (s : String) : String :=
  match s.data with
  | '0' :: 'x' :: rest => String.mk rest
  | _ => s

/-- A hexadecimal digit as accepted by Go's `encoding/hex`. -/
def isHexDigitChar (c : Char) : Bool :=
  c.isDigit || ('a' ≤ c && c ≤ 'f') || ('A' ≤ c && c ≤ 'F')

/-- Modelled from the spec: `engineIdToBytes` succeeds exactly on valid hex
strings — `hex.DecodeString` requires an even number of hex digits. -/
def isHexString (s : String) : Bool :=
  s.length % 2 == 0 && s.data.all isHexDigitChar

/-- Embedding of `SNMPArguments.validate` (client.go:49-118); the nested
early-return `if`s of the source become a guard chain in source order.
`UserName` length is the byte length in Go; character length here.  Returns
the `ArgumentError` message, or `none` on success. -/
def SNMPArguments.validate (a : SNMPArguments) : Option String :=
  if ¬(a.Version = .V1 ∨ a.Version = .V2c ∨ a.Version = .V3) then
    some "Unknown SNMP Version"
  else if (a.MessageMaxSize ≠ 0 ∧ a.MessageMaxSize < msgSizeMinimum) ∨
      a.MessageMaxSize > maxInt32 then
    some "MessageMaxSize is range 484..2147483647"
  else if a.Version = .V3 then
    if a.UserName.length < 1 ∨ a.UserName.length > 32 then
      some "UserName length is range 1..32"
    else if a.SecurityLevel.toNat > SecurityLevel.NoAuthNoPriv.toNat ∧
        a.AuthPassword.length < 8 then
      some "AuthPassword is at least 8 characters in length"
    else if a.SecurityLevel.toNat > SecurityLevel.NoAuthNoPriv.toNat ∧
        ¬(a.AuthProtocol = .Md5 ∨ a.AuthProtocol = .Sha) then
      some "Illegal AuthProtocol"
    else if a.SecurityLevel.toNat > SecurityLevel.AuthNoPriv.toNat ∧
        a.PrivPassword.length < 8 then
      some "PrivPassword is at least 8 characters in length"
    else if a.SecurityLevel.toNat > SecurityLevel.AuthNoPriv.toNat ∧
        ¬(a.PrivProtocol = .Des ∨ a.PrivProtocol = .Aes ∨
          a.PrivProtocol = .Aes192 ∨ a.PrivProtocol = .Aes256) then
      some "Illegal PrivProtocol"
    else if a.SecurityEngineId ≠ "" ∧ ¬isHexString (stripHex0x a.SecurityEngineId) then
      some "SecurityEngineId must be a hexadecimal string"
    else if a.ContextEngineId ≠ "" ∧ ¬isHexString (stripHex0x a.ContextEngineId) then
      some "ContextEngineId must be a hexadecimal string"
    else none
  else none

/-- `validate` also strips the `0x` prefixes in place (client.go:103,110);
applied to the stored arguments by `newSNMP`. -/
def SNMPArguments.stripEngineIds (a : SNMPArguments) : SNMPArguments :=
  if a.Version = .V3 then
    { a with
      SecurityEngineId :=
        if a.SecurityEngineId ≠ "" then stripHex0x a.SecurityEngineId else a.SecurityEngineId,
      ContextEngineId :=
        if a.ContextEngineId ≠ "" then stripHex0x a.ContextEngineId else a.ContextEngineId }
  else a

/-- `SNMPArguments.setDefault` (client.go:37-47). -/
def SNMPArguments.setDefault (a : SNMPArguments) : SNMPArguments :=
  { a with
    Network := if a.Network = "" then "udp" else a.Network,
    Timeout := if a.Timeout ≤ 0 then timeoutDefault else a.Timeout,
    MessageMaxSize := if a.MessageMaxSize = 0 then msgSizeDefault else a.MessageMaxSize }

/-- Embedding of `NewSNMP` (client.go:434-440): validate, then store the
arguments (with engine ids stripped and defaults set).  No I/O happens here;
the connection is only dialed by `Open`. -/
def newSNMP (args : SNMPArguments) : Except String SNMPArguments :=
  match args.validate with
  | some msg => .error msg
  | none => .ok args.stripEngineIds.setDefault

/-- `true` iff an `Except` result is `.ok`. -/
def exceptIsOk : Except String SNMPArguments → Bool
  | .ok _ => true
  | .error _ => false

/-! ## V2TrapWithBootsTime (client.go:365-409) -/

/-- Observable outcome of one `V2TrapWithBootsTime` call.  `error` is the
returned error message (if any); `finalArgs` is the client's argument struct
after the call returns (the `defer` has run); `sendObservedArgs` is the
argument struct as seen by the send path `v2trap`/`sendPdu` while the call
was in flight, `none` when the range checks returned before any send. -/
structure V2TrapOutcome where
  error : Option String
  finalArgs : SNMPArguments
  sendObservedArgs : Option SNMPArguments
deriving DecidableEq, Repr

/-- The version guard of `v2trap` (client.go:397-404); the actual PDU send is
I/O and contributes no further state change to the argument struct. -/
def v2trapError (a : SNMPArguments) : Option String :=
  if a.Version.toInt < SNMPVersion.V2c.toInt then some "Unsupported SNMP Version" else none

/-- Embedding of `V2TrapWithBootsTime` (client.go:370-391): range-check
`eBoots`/`eTime`, stash them into the argument struct, send, and reset both
fields to zero in a `defer` that runs whether or not the send failed. -/
def v2TrapWithBootsTime (args : SNMPArguments) (eBoots eTime : Int) : V2TrapOutcome :=
  if eBoots < 0 ∨ eBoots > maxInt32 then
    { error := some "EngineBoots is range 0..2147483647", finalArgs := args,
      sendObservedArgs := none }
  else if eTime < 0 ∨ eTime > maxInt32 then
    { error := some "EngineTime is range 0..2147483647", finalArgs := args,
      sendObservedArgs := none }
  else
    let stashed := { args with authEngineBoots := eBoots, authEngineTime := eTime }
    { error := v2trapError stashed,
      finalArgs := { stashed with authEngineBoots := 0, authEngineTime := 0 },
      sendObservedArgs := some stashed }

/-! ## BER primitives for the V1 trap datagram

Modelled from the spec (§4.1 Codec): tag-length-value encoding, short/long
length form, minimal two's-complement integers, base-128 OID sub-identifiers.
The corresponding marshal helpers of the library are not in this snapshot. -/

/-- Big-endian base-256 digits of `n` (at least one digit); fuel-structural. -/
def natBEBytesFuel : Nat → Nat → List Nat
  | 0, _ => []
  | f + 1, n => if n < 256 then [n] else natBEBytesFuel f (n / 256) ++ [n % 256]

/-- Big-endian base-256 digits of `n`. -/
def natBEBytes (n : Nat) : List Nat := natBEBytesFuel (n + 1) n

/-- Minimal two's-complement big-endian encoding of an integer
(spec §4.1: "value encoded in minimum two's-complement bytes"). -/
def intTwosBytes (v : Int) : List Nat :=
  if 0 ≤ v then
    let b := natBEBytes v.toNat
    if 128 ≤ b.headD 0 then 0 :: b else b
  else
    let m := (-v).toNat
    let b := natBEBytes (m - 1)
    let n := if 128 ≤ b.headD 0 then b.length + 1 else b.length
    let u := natBEBytes (2 ^ (8 * n) - m)
    List.replicate (n - u.length) 0 ++ u

/-- BER length octets: short form below 128, else `0x80+k` and `k` bytes
(spec §4.1). -/
def berLen (n : Nat) : List Nat :=
  if n < 128 then [n] else (128 + (natBEBytes n).length) :: natBEBytes n

/-- One BER tag-length-value triple. -/
def marshalTLV (tag : Nat) (content : List Nat) : List Nat :=
  tag :: berLen content.length ++ content

/-- ASN.1 INTEGER (tag 0x02). -/
def marshalInt (v : Int) : List Nat := marshalTLV 2 (intTwosBytes v)

/-- OCTET STRING (tag 0x04). -/
def marshalOctetString (bs : List Nat) : List Nat := marshalTLV 4 bs

/-- Base-128 digits of `n` (at least one digit); fuel-structural. -/
def base7Fuel : Nat → Nat → List Nat
  | 0, _ => []
  | f + 1, n => if n < 128 then [n] else base7Fuel f (n / 128) ++ [n % 128]

/-- Set the continuation bit on all but the last base-128 digit. -/
def markHigh : List Nat → List Nat
  | [] => []
  | [x] => [x]
  | x :: xs => (x + 128) :: markHigh xs

/-- Sub-identifier encoding: base-128 big-endian, high bit set on all but the
final byte (spec §4.1). -/
def subidBytes (n : Nat) : List Nat := markHigh (base7Fuel (n + 1) n)

/-- OID encoding (tag 0x06): first two sub-ids packed as `40*a + b`
(spec §4.1); fails (Go: marshal error) below two components. -/
def marshalOid : Oid → Option (List Nat)
  | a :: b :: rest =>
    some (marshalTLV 6 (subidBytes (40 * a + b) ++ (rest.map subidBytes).flatten))
  | _ => none

/-- IpAddress encoding (tag 0x40, always 4 bytes; spec §4.1). -/
def marshalIp (b0 b1 b2 b3 : Nat) : List Nat := [64, 4, b0, b1, b2, b3]

/-- TimeTicks encoding (tag 0x43): minimum unsigned bytes, leading zero when
the value would appear negative (spec §4.1). -/
def marshalTimeTicks (v : Nat) : List Nat := marshalTLV 67 (intTwosBytes (v : Int))

/-- UTF-8 encoding of one character. -/
def charUtf8Bytes (c : Char) : List Nat :=
  let n := c.toNat
  if n < 128 then [n]
  else if n < 2048 then [192 + n / 64, 128 + n % 64]
  else if n < 65536 then [224 + n / 4096, 128 + (n / 64) % 64, 128 + n % 64]
  else [240 + n / 262144, 128 + (n / 4096) % 64, 128 + (n / 64) % 64, 128 + n % 64]

/-- UTF-8 bytes of a string (Go's `[]byte(s)`). -/
def strBytes (s : String) : List Nat := (s.data.map charUtf8Bytes).flatten

/-- Split a character list on `'.'` with the semantics of Go's
`strings.Split(s, ".")`: the empty string yields one empty component, and
separators at the ends yield empty components. -/
def splitCharsOnDot : List Char → List (List Char)
  | [] => [[]]
  | c :: rest =>
    if c = '.' then [] :: splitCharsOnDot rest
    else
      match splitCharsOnDot rest with
      | [] => [[c]]
      | g :: gs => (c :: g) :: gs

/-! ## Go integer parsing helpers used by `V1Trap` -/

/-- Decimal digits to a number; `none` unless non-empty and all digits. -/
def parseDigits (cs : List Char) : Option Nat :=
  if cs = [] then none
  else if cs.all Char.isDigit then
    some (cs.foldl (fun a c => a * 10 + (c.toNat - 48)) 0)
  else none

/-- The decimal syntax accepted by `strconv.Atoi`: optional sign, digits. -/
def parseGoInt (s : String) : Option Int :=
  match s.data with
  | '+' :: rest => (parseDigits rest).map (fun n => (n : Int))
  | '-' :: rest => (parseDigits rest).map (fun n => -(n : Int))
  | cs => (parseDigits cs).map (fun n => (n : Int))

/-- `strconv.Atoi` with its error ignored, as in client.go:317: syntax errors
yield 0, out-of-range values are clamped to the int64 bounds. -/
def goAtoi (s : String) : Int :=
  match parseGoInt s with
  | none => 0
  | some v => if v > maxInt64 then maxInt64 else if v < -maxInt64 - 1 then -maxInt64 - 1 else v

/-- Modelled from the spec: `NewOid` parses the canonical dot-decimal text
form; each sub-identifier is within the range of a 32-bit unsigned integer. -/
def parseOidStr (s : String) : Option Oid :=
  (splitCharsOnDot s.data).mapM (fun part =>
    match parseDigits part with
    | some n => if n ≤ 4294967295 then some n else none
    | none => none)

/-- The dot components of `AgentAddr` (`strings.Split(varPduV1.AgentAddr, ".")`). -/
def agentAddrParts (s : String) : List String :=
  (splitCharsOnDot s.data).map String.mk

/-- One `ipByte[n] = (byte)(input)` conversion of client.go:317-319:
`strconv.Atoi` with ignored error, truncated to a byte. -/
def goAtoiByte (s : String) : Nat := ((goAtoi s) % 256).toNat

/-- The `var ipByte [4]byte` filled by the loop of client.go:314-320.
`none` encodes the index-out-of-range panic when there are more than four
components; unwritten entries keep the zero value. -/
def ipBytesOfParts (parts : List String) : Option (List Nat) :=
  if parts.length > 4 then none
  else some ((List.range 4).map (fun n =>
    match parts[n]? with
    | some p => goAtoiByte p
    | none => 0))

/-! ## V1Trap (client.go:274-363) -/

/-- The Trap-v1 argument struct (`TrapPduV1`); the `VariableBindings` field is
ignored by the source, which always emits an empty var-bind list. -/
structure TrapPduV1 where
  Enterprise : String := ""
  AgentAddr : String := ""
  GenericTrap : Int := 0
  SpecificTrap : Int := 0
  TimeStamp : Int := 0
deriving DecidableEq, Repr

/-- Result of `V1Trap`: `.argError` is the version-guard `ArgumentError`;
`.marshalErr` a returned marshalling error; `.panicked` a Go runtime panic
(nil `Oid` from an ignored `NewOid` error, or the `ipByte` index overflow);
`.sent ds deadline` a completed call that wrote the datagrams `ds` with the
given write deadline and awaited no response. -/
inductive V1TrapResult where
  | argError
  | marshalErr
  | panicked
  | sent (datagrams : List (List Nat)) (deadline : Int)
deriving DecidableEq, Repr

/-- Wrap a value into 32-bit two's complement, Go's `(int32)(v)`. -/
def toInt32 (v : Int) : Int :=
  let m := v % 4294967296
  if m ≥ 2147483648 then m - 4294967296 else m

/-- Wrap a value into 32 unsigned bits, Go's `(uint32)(v)`. -/
def toUint32 (v : Int) : Nat := (v % 4294967296).toNat

/-- Embedding of `SNMP.V1Trap` (client.go:274-363): version guard, manual
BER assembly of the Trap-v1 message with a patched one-byte PDU length, one
UDP write under the configured timeout as deadline, no read. -/
def v1Trap (args : SNMPArguments) (p : TrapPduV1) : V1TrapResult :=
  if args.Version.toInt > SNMPVersion.V1.toInt then .argError
  else
    let acc0 := marshalInt args.Version.toInt ++
      marshalOctetString (strBytes args.Community) ++ [164, 0]
    let dataTrapLength := acc0.length
    match parseOidStr p.Enterprise with
    | none => .panicked
    | some oid =>
      match marshalOid oid with
      | none => .marshalErr
      | some oidBytes =>
        let parts := agentAddrParts p.AgentAddr
        match ipBytesOfParts parts with
        | none => .panicked
        | some ip =>
          let acc := acc0 ++ oidBytes ++
            marshalIp (ip.getD 0 0) (ip.getD 1 0) (ip.getD 2 0) (ip.getD 3 0) ++
            marshalInt (toInt32 p.GenericTrap) ++
            marshalInt (toInt32 p.SpecificTrap) ++
            marshalTimeTicks (toUint32 p.TimeStamp) ++ [48, 0]
          let patched := acc.set (dataTrapLength - 1) ((acc.length - dataTrapLength) % 256)
          let datagram := marshalTLV 48 patched
          .sent [datagram] args.Timeout

/-! ## Trap-v1 decoder

Modelled from the spec: "Trap-v1 has a distinct layout: { enterprise OID,
agent-addr IpAddress, generic-trap (0..6), specific-trap int, time-stamp
TimeTicks, var-binds }" with the §4.1 codec contracts.  This is the
specification-side decoder used to state the round-trip claim; it is defined
from the spec's words, not from the source. -/

/-- Decoded Trap-v1 fields. -/
structure TrapV1Decoded where
  version : Int
  community : List Nat
  enterprise : Oid
  agentAddr : Nat × Nat × Nat × Nat
  genericTrap : Int
  specificTrap : Int
  timeStamp : Nat
  varBinds : List Nat
deriving DecidableEq, Repr

/-- Read BER length octets; returns the length and the remaining bytes. -/
def readLen : List Nat → Option (Nat × List Nat)
  | [] => none
  | b :: rest =>
    if b < 128 then some (b, rest)
    else
      let k := b - 128
      if k = 0 ∨ rest.length < k then none
      else some ((rest.take k).foldl (fun a d => a * 256 + d) 0, rest.drop k)

/-- Read one TLV with the expected tag; returns content and remaining bytes. -/
def readTLV (tag : Nat) : List Nat → Option (List Nat × List Nat)
  | [] => none
  | t :: rest =>
    if t = tag then
      match readLen rest with
      | none => none
      | some (len, rest1) =>
        if rest1.length < len then none else some (rest1.take len, rest1.drop len)
    else none

/-- Signed big-endian two's-complement value of content bytes. -/
def deTwos (bs : List Nat) : Int :=
  let u : Int := bs.foldl (fun a d => a * 256 + (d : Int)) 0
  match bs with
  | [] => 0
  | b :: _ => if 128 ≤ b then u - 2 ^ (8 * bs.length) else u

/-- Unsigned big-endian value of content bytes. -/
def deUnsigned (bs : List Nat) : Nat := bs.foldl (fun a d => a * 256 + d) 0

/-- Split OID content bytes into base-128 groups. -/
def oidGroupsAux : List Nat → Nat → List Nat → Option (List Nat)
  | [], cur, accRev => if cur = 0 then some accRev.reverse else none
  | b :: rest, cur, accRev =>
    if b < 128 then oidGroupsAux rest 0 ((cur * 128 + b) :: accRev)
    else oidGroupsAux rest (cur * 128 + (b - 128)) accRev

/-- Decode OID content bytes: unpack the first group as `40*a + b`. -/
def deOid (bs : List Nat) : Option Oid :=
  match oidGroupsAux bs 0 [] with
  | none => none
  | some [] => none
  | some (g :: gs) =>
    let a := if g < 40 then 0 else if g < 80 then 1 else 2
    some (a :: (g - 40 * a) :: gs)

/-- Decode a complete Trap-v1 datagram per the spec's layout. -/
def decodeTrapV1Spec (bs : List Nat) : Option TrapV1Decoded :=
  match readTLV 48 bs with
  | none => none
  | some (msg, rest0) =>
    if rest0 ≠ [] then none
    else match readTLV 2 msg with
    | none => none
    | some (verBytes, r1) =>
      match readTLV 4 r1 with
      | none => none
      | some (community, r2) =>
        match readTLV 164 r2 with
        | none => none
        | some (trap, r3) =>
          if r3 ≠ [] then none
          else match readTLV 6 trap with
          | none => none
          | some (oidBytes, t1) =>
            match deOid oidBytes with
            | none => none
            | some enterprise =>
              match readTLV 64 t1 with
              | none => none
              | some (ipBytes, t2) =>
                match ipBytes with
                | [b0, b1, b2, b3] =>
                  match readTLV 2 t2 with
                  | none => none
                  | some (genBytes, t3) =>
                    match readTLV 2 t3 with
                    | none => none
                    | some (specBytes, t4) =>
                      match readTLV 67 t4 with
                      | none => none
                      | some (ttBytes, t5) =>
                        match readTLV 48 t5 with
                        | none => none
                        | some (vbs, t6) =>
                          if t6 ≠ [] then none
                          else some {
                            version := deTwos verBytes,
                            community := community,
                            enterprise := enterprise,
                            agentAddr := (b0, b1, b2, b3),
                            genericTrap := deTwos genBytes,
                            specificTrap := deTwos specBytes,
                            timeStamp := deUnsigned ttBytes,
                            varBinds := vbs }
                | _ => none

/-! ## Support definitions for the claim statements -/

/-- `true` iff a request outcome is an `ArgumentError`. -/
def isArgErrorE : Except SnmpError Pdu → Bool
  | .error (.argumentError _) => true
  | _ => false

/-- The out-of-range `MessageMaxSize` condition of `validate` (client.go:57). -/
def msgSizeBadC6 (a : SNMPArguments) : Prop :=
  (a.MessageMaxSize ≠ 0 ∧ a.MessageMaxSize < msgSizeMinimum) ∨ a.MessageMaxSize > maxInt32

/-- The disjunction of v3 rejection conditions enumerated by claim C6. -/
def claimC6Cond (a : SNMPArguments) : Prop :=
  (a.UserName.length < 1 ∨ a.UserName.length > 32) ∨
  (a.SecurityLevel.toNat > SecurityLevel.NoAuthNoPriv.toNat ∧
    (a.AuthPassword.length < 8 ∨ ¬(a.AuthProtocol = .Md5 ∨ a.AuthProtocol = .Sha))) ∨
  (a.SecurityLevel.toNat > SecurityLevel.AuthNoPriv.toNat ∧
    (a.PrivPassword.length < 8 ∨
      ¬(a.PrivProtocol = .Des ∨ a.PrivProtocol = .Aes ∨
        a.PrivProtocol = .Aes192 ∨ a.PrivProtocol = .Aes256))) ∨
  (a.SecurityEngineId ≠ "" ∧ ¬isHexString (stripHex0x a.SecurityEngineId)) ∨
  (a.ContextEngineId ≠ "" ∧ ¬isHexString (stripHex0x a.ContextEngineId))

/-- The client configuration of the spec's V1 trap scenario (§8 scenario 5). -/
def argsC3 : SNMPArguments :=
  { Version := .V1, Address := "192.168.16.254:162", Retries := 1, Community := "public" }

/-- The trap fields of the spec's V1 trap scenario (§8 scenario 5). -/
def trapC3 : TrapPduV1 :=
  { Enterprise := "1.3.6.1.4.1.37072.302.2.3", AgentAddr := "192.168.16.221",
    GenericTrap := 4, SpecificTrap := 0, TimeStamp := 11934 }

/-- The datagram `v1Trap` emits for `argsC3`/`trapC3`. -/
def trapDatagramC3 : List Nat :=
  [48, 45, 2, 1, 0, 4, 6, 112, 117, 98, 108, 105, 99, 164, 32, 6, 12, 43, 6, 1, 4, 1,
   130, 161, 80, 130, 46, 2, 3, 64, 4, 192, 168, 16, 221, 2, 1, 4, 2, 1, 0, 67, 2, 46,
   158, 48, 0]

/-- A concrete three-entry MIB used to witness the walk-completeness
theorem at explicit inputs. -/
def mibC1 : List VarBind :=
  [ { oid := [1, 3, 1], vbVariable := .vInteger 41 },
    { oid := [1, 3, 2], vbVariable := .vInteger 42 },
    { oid := [1, 4, 1], vbVariable := .vInteger 43 } ]

/-! # Theorems -/

/-- C9: `GetBulkWalk` performs no range check on `nonRepeaters` before slicing
`oids`: whenever `nonRepeaters` is negative or exceeds the capacity of the
`oids` slice (equal to its length in this embedding), the slice expression of
client.go:209 is out of bounds and the operation panics instead of returning
an `ArgumentError`. -/
theorem c9_getBulkWalk_panics (version : SNMPVersion)
    (transport : Pdu → Except SnmpError Pdu) (oids : List Oid)
    (nonRepeaters maxRepetitions : Int) (fuel : Nat)
    (h : nonRepeaters < 0 ∨ nonRepeaters > (oids.length : Int)) :
    getBulkWalk version transport oids nonRepeaters maxRepetitions fuel = .panicked := by
  unfold getBulkWalk
  rw [if_pos h]

/-- Witness for C9 at the concrete inputs `oids = [[1,3]]`, `nonRepeaters = -1`
and `nonRepeaters = 5`. -/
theorem c9_witness :
    getBulkWalk .V2c (fun _ => .error .genError) [[1, 3]] (-1) 5 3 = .panicked ∧
    getBulkWalk .V2c (fun _ => .error .genError) [[1, 3]] 5 5 3 = .panicked :=
  ⟨c9_getBulkWalk_panics _ _ _ _ _ _ (Or.inl (by decide)),
   c9_getBulkWalk_panics _ _ _ _ _ _ (Or.inr (by decide))⟩

/-- C2: at any iteration of the `GetBulkWalk` loop, if the inner
`GetBulkRequest` yields a PDU whose error-status is non-zero and either that
status is not `NoSuchName` or the error-index is at most the current
`nonRepeaters` value, the walk stops and returns that raw PDU with a nil
error (`.ok pdu` is the source's `return pdu, nil` of client.go:220). -/
theorem c2_walkLoop_error_abort (query : List Oid → Int → Int → Except SnmpError Pdu)
    (maxRepetitions : Int) (fuel : Nat) (st : WalkState) (pdu : Pdu)
    (hne : st.reqOids ≠ [])
    (hq : query st.reqOids st.nonRepeaters maxRepetitions = .ok pdu)
    (hs : pdu.errorStatus ≠ noError)
    (hcond : pdu.errorStatus ≠ noSuchName ∨ pdu.errorIndex ≤ st.nonRepeaters)
    (hfuel : 0 < fuel) :
    walkLoop query maxRepetitions fuel st = .ok pdu := by
  obtain ⟨f, rfl⟩ : ∃ f, fuel = f + 1 := ⟨fuel - 1, by omega⟩
  unfold walkLoop
  rw [if_neg hne, hq]
  simp only
  rw [if_pos ⟨hs, hcond⟩]

/-- Witness for C2: a one-iteration walk whose query answers with a
`genErr`-status PDU. -/
theorem c2_witness :
    walkLoop (fun _ _ _ => .ok ⟨.getResponse, 0, 5, 1, []⟩) 3 1
      ⟨[[1, 3]], [[1, 3]], 0, [], []⟩ =
      .ok (⟨.getResponse, 0, 5, 1, []⟩ : Pdu) :=
  c2_walkLoop_error_abort _ _ _ _ _ (by decide) rfl (by decide)
    (Or.inl (by decide)) (by decide)

/-- C4: `GetBulkRequest` returns an `ArgumentError` before any I/O (the
result does not depend on the transport) whenever the version is V1 or one of
the counts is outside `0..2^31-1`; for V2c and V3 with both counts in range
it passes the transport a GetBulkRequest PDU carrying the counts in the
error-status/error-index slots. -/
theorem c4_getBulkRequest_validation (version : SNMPVersion)
    (transport : Pdu → Except SnmpError Pdu) (oids : List Oid)
    (nonRepeaters maxRepetitions : Int) :
    ((version = .V1 ∨ nonRepeaters < 0 ∨ nonRepeaters > maxInt32 ∨
        maxRepetitions < 0 ∨ maxRepetitions > maxInt32) →
      isArgErrorE (getBulkRequestF version transport oids nonRepeaters maxRepetitions) = true) ∧
    (version ≠ .V1 → 0 ≤ nonRepeaters → nonRepeaters ≤ maxInt32 →
      0 ≤ maxRepetitions → maxRepetitions ≤ maxInt32 →
      getBulkRequestF version transport oids nonRepeaters maxRepetitions =
        transport { newPduWithOids .getBulkRequest oids with
                    errorStatus := nonRepeaters, errorIndex := maxRepetitions }) := by
  constructor
  · intro h
    unfold getBulkRequestF
    split
    · rfl
    · split
      · rfl
      · split
        · rfl
        · exfalso
          rename_i h1 h2 h3
          rcases h with h | h
          · subst h; exact h1 (by decide)
          · rcases h with h | h | h | h
            · exact h2 (Or.inl h)
            · exact h2 (Or.inr h)
            · exact h3 (Or.inl h)
            · exact h3 (Or.inr h)
  · intro hv h1 h2 h3 h4
    unfold getBulkRequestF
    rw [if_neg, if_neg (by omega), if_neg (by omega)]
    cases version with
    | V1 => exact absurd rfl hv
    | V2c => decide
    | V3 => decide

/-- Witness for C4: the V1 rejection, an out-of-range count, and the in-range
send path at concrete inputs. -/
theorem c4_witness :
    isArgErrorE (getBulkRequestF .V1 (fun p => .ok p) [[1, 3]] 0 5) = true ∧
    isArgErrorE (getBulkRequestF .V2c (fun p => .ok p) [[1, 3]] (-2) 5) = true ∧
    getBulkRequestF .V3 (fun p => .ok p) [[1, 3]] 1 5 =
      .ok { newPduWithOids .getBulkRequest [[1, 3]] with errorStatus := 1, errorIndex := 5 } :=
  ⟨(c4_getBulkRequest_validation _ _ _ _ _).1 (Or.inl rfl),
   (c4_getBulkRequest_validation _ _ _ _ _).1 (Or.inr (Or.inl (by decide))),
   (c4_getBulkRequest_validation _ _ _ _ _).2 (by decide) (by decide) (by decide)
     (by decide) (by decide)⟩

/-- C5: `V2TrapWithBootsTime` returns an `ArgumentError` without touching any
client state when `eBoots` or `eTime` is outside `0..2^31-1`; in range, the
boots/time override stashed in the argument struct is exactly what the send
path observes, and after the call returns — with or without an error — the
stored `authEngineBoots`/`authEngineTime` fields are 0 again. -/
theorem c5_v2TrapWithBootsTime_frame (args : SNMPArguments) (eBoots eTime : Int) :
    ((eBoots < 0 ∨ eBoots > maxInt32 ∨ eTime < 0 ∨ eTime > maxInt32) →
      (v2TrapWithBootsTime args eBoots eTime).error.isSome = true ∧
      (v2TrapWithBootsTime args eBoots eTime).finalArgs = args ∧
      (v2TrapWithBootsTime args eBoots eTime).sendObservedArgs = none) ∧
    (0 ≤ eBoots → eBoots ≤ maxInt32 → 0 ≤ eTime → eTime ≤ maxInt32 →
      (v2TrapWithBootsTime args eBoots eTime).sendObservedArgs =
        some { args with authEngineBoots := eBoots, authEngineTime := eTime } ∧
      (v2TrapWithBootsTime args eBoots eTime).finalArgs.authEngineBoots = 0 ∧
      (v2TrapWithBootsTime args eBoots eTime).finalArgs.authEngineTime = 0) := by
  constructor
  · intro h
    unfold v2TrapWithBootsTime
    rcases h with h | h | h | h
    · rw [if_pos (Or.inl h)]; exact ⟨rfl, rfl, rfl⟩
    · rw [if_pos (Or.inr h)]; exact ⟨rfl, rfl, rfl⟩
    all_goals
      by_cases hb : eBoots < 0 ∨ eBoots > maxInt32
      · rw [if_pos hb]; exact ⟨rfl, rfl, rfl⟩
      · rw [if_neg hb]
        first
        | (rw [if_pos (Or.inl h)]; exact ⟨rfl, rfl, rfl⟩)
        | (rw [if_pos (Or.inr h)]; exact ⟨rfl, rfl, rfl⟩)
  · intro h1 h2 h3 h4
    unfold v2TrapWithBootsTime
    rw [if_neg (by omega), if_neg (by omega)]
    exact ⟨rfl, rfl, rfl⟩

/-- Witness for C5: an out-of-range `eBoots` and an in-range call at concrete
inputs. -/
theorem c5_witness :
    ((v2TrapWithBootsTime argsC3 (-1) 0).error.isSome = true ∧
      (v2TrapWithBootsTime argsC3 (-1) 0).finalArgs = argsC3 ∧
      (v2TrapWithBootsTime argsC3 (-1) 0).sendObservedArgs = none) ∧
    ((v2TrapWithBootsTime argsC3 7 9).sendObservedArgs =
        some { argsC3 with authEngineBoots := 7, authEngineTime := 9 } ∧
      (v2TrapWithBootsTime argsC3 7 9).finalArgs.authEngineBoots = 0 ∧
      (v2TrapWithBootsTime argsC3 7 9).finalArgs.authEngineTime = 0) :=
  ⟨(c5_v2TrapWithBootsTime_frame _ _ _).1 (Or.inl (by decide)),
   (c5_v2TrapWithBootsTime_frame _ _ _).2 (by decide) (by decide) (by decide) (by decide)⟩

/-- C6 counterexample: the claim's "exactly when" list is incomplete — a V3
argument set with all listed v3 conditions satisfied but `MessageMaxSize`
outside `484..2^31-1` (here 100) is still rejected by `validate`
(client.go:57 runs before the v3 branch). -/
theorem c6_counterexample :
    (SNMPArguments.validate { Version := .V3, MessageMaxSize := 100, UserName := "user" }).isSome
      = true ∧
    ¬claimC6Cond { Version := .V3, MessageMaxSize := 100, UserName := "user" } := by
  constructor
  · rfl
  · intro h
    rcases h with h | h | h | h | h <;> revert h <;> decide

/-- C6 (amended): for V3 arguments, `validate` returns an `ArgumentError`
exactly when `MessageMaxSize` is out of range or one of the claim's listed v3
conditions holds (user-name length, auth password/protocol under
`> NoAuthNoPriv`, priv password/protocol under `> AuthNoPriv`, non-hex engine
ids after stripping an optional `0x`). -/
theorem c6_validate_v3_iff (a : SNMPArguments) (h : a.Version = .V3) :
    a.validate.isSome = true ↔ (msgSizeBadC6 a ∨ claimC6Cond a) := by
  unfold SNMPArguments.validate
  rw [h]
  rw [if_neg (by decide)]
  by_cases h2 : (a.MessageMaxSize ≠ 0 ∧ a.MessageMaxSize < msgSizeMinimum) ∨
      a.MessageMaxSize > maxInt32
  · rw [if_pos h2]
    exact iff_of_true rfl (Or.inl h2)
  rw [if_neg h2, if_pos rfl]
  by_cases h3 : a.UserName.length < 1 ∨ a.UserName.length > 32
  · rw [if_pos h3]
    exact iff_of_true rfl (Or.inr (Or.inl h3))
  rw [if_neg h3]
  by_cases h4 : a.SecurityLevel.toNat > SecurityLevel.NoAuthNoPriv.toNat ∧
      a.AuthPassword.length < 8
  · rw [if_pos h4]
    exact iff_of_true rfl (Or.inr (Or.inr (Or.inl ⟨h4.1, Or.inl h4.2⟩)))
  rw [if_neg h4]
  by_cases h5 : a.SecurityLevel.toNat > SecurityLevel.NoAuthNoPriv.toNat ∧
      ¬(a.AuthProtocol = .Md5 ∨ a.AuthProtocol = .Sha)
  · rw [if_pos h5]
    exact iff_of_true rfl (Or.inr (Or.inr (Or.inl ⟨h5.1, Or.inr h5.2⟩)))
  rw [if_neg h5]
  by_cases h6 : a.SecurityLevel.toNat > SecurityLevel.AuthNoPriv.toNat ∧
      a.PrivPassword.length < 8
  · rw [if_pos h6]
    exact iff_of_true rfl (Or.inr (Or.inr (Or.inr (Or.inl ⟨h6.1, Or.inl h6.2⟩))))
  rw [if_neg h6]
  by_cases h7 : a.SecurityLevel.toNat > SecurityLevel.AuthNoPriv.toNat ∧
      ¬(a.PrivProtocol = .Des ∨ a.PrivProtocol = .Aes ∨
        a.PrivProtocol = .Aes192 ∨ a.PrivProtocol = .Aes256)
  · rw [if_pos h7]
    exact iff_of_true rfl (Or.inr (Or.inr (Or.inr (Or.inl ⟨h7.1, Or.inr h7.2⟩))))
  rw [if_neg h7]
  by_cases h8 : a.SecurityEngineId ≠ "" ∧ ¬isHexString (stripHex0x a.SecurityEngineId)
  · rw [if_pos h8]
    exact iff_of_true rfl (Or.inr (Or.inr (Or.inr (Or.inr (Or.inl h8)))))
  rw [if_neg h8]
  by_cases h9 : a.ContextEngineId ≠ "" ∧ ¬isHexString (stripHex0x a.ContextEngineId)
  · rw [if_pos h9]
    exact iff_of_true rfl (Or.inr (Or.inr (Or.inr (Or.inr (Or.inr h9)))))
  rw [if_neg h9]
  refine iff_of_false (by simp) ?_
  rintro (hm | hc)
  · exact h2 hm
  rcases hc with hc | hc | hc | hc | hc
  · exact h3 hc
  · rcases hc.2 with hp | hp
    · exact h4 ⟨hc.1, hp⟩
    · exact h5 ⟨hc.1, hp⟩
  · rcases hc.2 with hp | hp
    · exact h6 ⟨hc.1, hp⟩
    · exact h7 ⟨hc.1, hp⟩
  · exact h8 hc
  · exact h9 hc

/-- Witness for C6 (amended) at a concrete V3 argument set that validates. -/
theorem c6_witness :
    (SNMPArguments.validate { Version := .V3, UserName := "u" }).isSome = true ↔
      (msgSizeBadC6 { Version := .V3, UserName := "u" } ∨
        claimC6Cond { Version := .V3, UserName := "u" }) :=
  c6_validate_v3_iff _ rfl

/-- C8 counterexample: `NewSNMP` with an empty `Address` succeeds —
`validate` (client.go:49-118) never inspects `Address`, so construction does
not fail with an `ArgumentError`. -/
theorem c8_counterexample :
    ({ Version := .V1, Address := "" } : SNMPArguments).Address = "" ∧
    exceptIsOk (newSNMP { Version := .V1, Address := "" }) = true :=
  ⟨rfl, rfl⟩

/-- C8 (amended): the `Address` argument is not validated at construction:
`validate` and the success of `NewSNMP` are independent of `Address` (an
empty address only fails later, at `Open`/dial time, as a transport error). -/
theorem c8_validate_ignores_address (a : SNMPArguments) (s : String) :
    ({ a with Address := s } : SNMPArguments).validate = a.validate ∧
    exceptIsOk (newSNMP { a with Address := s }) = exceptIsOk (newSNMP a) := by
  refine ⟨rfl, ?_⟩
  unfold newSNMP
  have he : ({ a with Address := s } : SNMPArguments).validate = a.validate := rfl
  cases hv : a.validate with
  | some m => rw [he, hv]
  | none => rw [he, hv]; rfl

/-- C7 counterexample: with version V1 but an `AgentAddr` of five components,
`V1Trap` panics (client.go:316-319) and sends nothing, so "when the version
is V1 it sends exactly one datagram" does not hold as stated. -/
theorem c7_counterexample :
    argsC3.Version = .V1 ∧
    v1Trap argsC3 { trapC3 with AgentAddr := "10.20.30.40.50" } = .panicked :=
  ⟨rfl, by decide⟩

/-- C7 (amended): `V1Trap` returns an `ArgumentError` and sends nothing when
the configured version is V2c or V3; when the version is V1 — and the trap's
`Enterprise` parses as an OID that marshals (two or more components) and its
`AgentAddr` has at most four dot components, so that the call does not panic
or return a marshal error — it sends exactly one datagram under the
configured write deadline and awaits no response. -/
theorem c7_v1Trap_guard (args : SNMPArguments) (p : TrapPduV1) :
    (args.Version ≠ .V1 → v1Trap args p = .argError) ∧
    (args.Version = .V1 → ∀ oid, parseOidStr p.Enterprise = some oid →
      (marshalOid oid).isSome = true →
      (agentAddrParts p.AgentAddr).length ≤ 4 →
      ∃ d, v1Trap args p = .sent [d] args.Timeout) := by
  constructor
  · intro hv
    unfold v1Trap
    rw [if_pos]
    cases hver : args.Version with
    | V1 => exact absurd hver hv
    | V2c => decide
    | V3 => decide
  · intro hv oid hoid hmar hlen
    obtain ⟨obs, hobs⟩ := Option.isSome_iff_exists.mp hmar
    have hip : ipBytesOfParts (agentAddrParts p.AgentAddr) =
        some ((List.range 4).map (fun n =>
          match (agentAddrParts p.AgentAddr)[n]? with
          | some q => goAtoiByte q
          | none => 0)) := by
      unfold ipBytesOfParts
      rw [if_neg (by omega)]
    unfold v1Trap
    rw [if_neg (by rw [hv]; decide)]
    simp only [hoid, hobs, hip]
    exact ⟨_, rfl⟩

/-- Witness for C7 (amended): the V3 rejection and the concrete V1 trap of
the spec's scenario 5 both at explicit inputs. -/
theorem c7_witness :
    v1Trap { argsC3 with Version := .V3 } trapC3 = .argError ∧
    ∃ d, v1Trap argsC3 trapC3 = .sent [d] argsC3.Timeout :=
  ⟨(c7_v1Trap_guard _ _).1 (by decide),
   (c7_v1Trap_guard _ _).2 rfl [1, 3, 6, 1, 4, 1, 37072, 302, 2, 3] rfl rfl
     (by decide)⟩

/-- C10: `V1Trap` parses `AgentAddr` by splitting on dots with unchecked
results — with version V1 and a marshalling enterprise OID, more than four
dot components make the write into the 4-byte `ipByte` array panic; and a
component that is not a decimal number is silently encoded as the byte 0
(`strconv.Atoi`'s error is discarded, client.go:317). -/
theorem c10_agentAddr_unchecked (args : SNMPArguments) (p : TrapPduV1) :
    (args.Version = .V1 → ∀ oid obs, parseOidStr p.Enterprise = some oid →
      marshalOid oid = some obs → (agentAddrParts p.AgentAddr).length > 4 →
      v1Trap args p = .panicked) ∧
    (∀ parts n, parts.length ≤ 4 → n < parts.length →
      parseGoInt (parts.getD n "") = none →
      ((ipBytesOfParts parts).getD []).getD n 1 = 0) := by
  constructor
  · intro hv oid obs hoid hobs hlen
    have hip : ipBytesOfParts (agentAddrParts p.AgentAddr) = none := by
      unfold ipBytesOfParts
      rw [if_pos hlen]
    unfold v1Trap
    rw [if_neg (by rw [hv]; decide)]
    simp only [hoid, hobs, hip]
  · intro parts n hle hn hbad
    unfold ipBytesOfParts
    rw [if_neg (by omega)]
    have hget : parts[n]? = some (parts.getD n "") := by
      rw [List.getD_eq_getElem?_getD, List.getElem?_eq_getElem hn]
      rfl
    have hrange : (List.range 4)[n]? = some n := by
      rw [List.getElem?_eq_getElem (by simpa using by omega : n < (List.range 4).length)]
      simp
    rw [Option.getD_some, List.getD_eq_getElem?_getD, List.getElem?_map, hrange]
    simp only [Option.map_some', Option.getD_some, hget]
    simp only [goAtoiByte, goAtoi, hbad]
    decide

/-- Witness for C10: the five-component panic and a non-numeric component
encoding to byte 0, at explicit inputs. -/
theorem c10_witness :
    v1Trap argsC3 { Enterprise := "1.3", AgentAddr := "1.2.3.4.5" } = .panicked ∧
    ((ipBytesOfParts (agentAddrParts "1.abc.3")).getD []).getD 1 1 = 0 :=
  ⟨(c10_agentAddr_unchecked argsC3 { Enterprise := "1.3", AgentAddr := "1.2.3.4.5" }).1
      rfl [1, 3] [6, 1, 43] rfl rfl (by decide),
   (c10_agentAddr_unchecked argsC3 { Enterprise := "1.3", AgentAddr := "1.2.3.4.5" }).2
      (agentAddrParts "1.abc.3") 1 (by decide) (by decide) (by decide)⟩

/-- C3: `V1Trap` at enterprise `1.3.6.1.4.1.37072.302.2.3`, agent address
`192.168.16.221`, generic-trap 4, specific-trap 0, timestamp 11934 emits a
single datagram whose Trap-v1 PDU (tag 0xA4 with enterprise OID, agent
IpAddress, generic-trap, specific-trap, TimeTicks timestamp and var-bind
list) decodes back to exactly those field values. -/
theorem c3_v1Trap_roundTrip :
    v1Trap argsC3 trapC3 = .sent [trapDatagramC3] argsC3.Timeout ∧
    decodeTrapV1Spec trapDatagramC3 =
      some ⟨0, strBytes "public", [1, 3, 6, 1, 4, 1, 37072, 302, 2, 3],
            (192, 168, 16, 221), 4, 0, 11934, []⟩ :=
  ⟨rfl, rfl⟩


/-! ## Lemmas on the OID order -/

theorem oidLt_irrefl : ∀ a : Oid, oidLt a a = false := by
  intro a
  induction a with
  | nil => rfl
  | cons x xs ih => simp [oidLt, ih]

theorem oidLt_cons_iff {x y : Nat} {xs ys : List Nat} :
    oidLt (x :: xs) (y :: ys) = true ↔ x < y ∨ (x = y ∧ oidLt xs ys = true) := by
  simp [oidLt, Bool.or_eq_true, Bool.and_eq_true, decide_eq_true_eq, beq_iff_eq]

theorem oidLt_trans : ∀ {a b c : Oid}, oidLt a b = true → oidLt b c = true → oidLt a c = true := by
  intro a
  induction a with
  | nil =>
    intro b c hab hbc
    cases b with
    | nil => exact absurd hab (by simp [oidLt])
    | cons y ys =>
      cases c with
      | nil => exact absurd hbc (by simp [oidLt])
      | cons z zs => simp [oidLt]
  | cons x xs ih =>
    intro b c hab hbc
    cases b with
    | nil => exact absurd hab (by simp [oidLt])
    | cons y ys =>
      cases c with
      | nil => exact absurd hbc (by simp [oidLt])
      | cons z zs =>
        rcases oidLt_cons_iff.mp hab with h1 | ⟨h1, h1'⟩ <;>
          rcases oidLt_cons_iff.mp hbc with h2 | ⟨h2, h2'⟩ <;>
          apply oidLt_cons_iff.mpr
        · exact Or.inl (by omega)
        · exact Or.inl (by omega)
        · exact Or.inl (by omega)
        · exact Or.inr ⟨by omega, ih h1' h2'⟩

theorem oidLt_trichotomy : ∀ a b : Oid, oidLt a b = true ∨ a = b ∨ oidLt b a = true := by
  intro a
  induction a with
  | nil =>
    intro b
    cases b with
    | nil => exact Or.inr (Or.inl rfl)
    | cons y ys => exact Or.inl (by simp [oidLt])
  | cons x xs ih =>
    intro b
    cases b with
    | nil => exact Or.inr (Or.inr (by simp [oidLt]))
    | cons y ys =>
      rcases Nat.lt_trichotomy x y with h | h | h
      · exact Or.inl (oidLt_cons_iff.mpr (Or.inl h))
      · rcases ih ys with h' | h' | h'
        · exact Or.inl (oidLt_cons_iff.mpr (Or.inr ⟨h, h'⟩))
        · exact Or.inr (Or.inl (by rw [h, h']))
        · exact Or.inr (Or.inr (oidLt_cons_iff.mpr (Or.inr ⟨h.symm, h'⟩)))
      · exact Or.inr (Or.inr (oidLt_cons_iff.mpr (Or.inl h)))

theorem oidLt_asymm {a b : Oid} (h : oidLt a b = true) : oidLt b a = false := by
  by_contra hc
  have hba : oidLt b a = true := by
    cases hh : oidLt b a
    · exact absurd hh hc
    · rfl
  have := oidLt_trans h hba
  rw [oidLt_irrefl] at this
  exact Bool.false_ne_true this

theorem oidLt_ne {a b : Oid} (h : oidLt a b = true) : a ≠ b := by
  intro he
  subst he
  rw [oidLt_irrefl] at h
  exact Bool.false_ne_true h

theorem oidLe_iff {a b : Oid} : oidLe a b = true ↔ oidLt a b = true ∨ a = b := by
  simp [oidLe, Bool.or_eq_true, beq_iff_eq]

theorem oidLe_refl (a : Oid) : oidLe a a = true := oidLe_iff.mpr (Or.inr rfl)

theorem oidLe_of_lt {a b : Oid} (h : oidLt a b = true) : oidLe a b = true :=
  oidLe_iff.mpr (Or.inl h)

theorem oidLt_of_le_of_lt {a b c : Oid} (h1 : oidLe a b = true) (h2 : oidLt b c = true) :
    oidLt a c = true := by
  rcases oidLe_iff.mp h1 with h | h
  · exact oidLt_trans h h2
  · rwa [h]

theorem oidLt_of_lt_of_le {a b c : Oid} (h1 : oidLt a b = true) (h2 : oidLe b c = true) :
    oidLt a c = true := by
  rcases oidLe_iff.mp h2 with h | h
  · exact oidLt_trans h1 h
  · rwa [← h]

theorem oidLe_trans {a b c : Oid} (h1 : oidLe a b = true) (h2 : oidLe b c = true) :
    oidLe a c = true := by
  rcases oidLe_iff.mp h1 with h | h
  · exact oidLe_of_lt (oidLt_of_lt_of_le h h2)
  · rwa [h]

theorem not_lt_of_le {a b : Oid} (h : oidLe a b = true) : oidLt b a = false := by
  rcases oidLe_iff.mp h with h' | h'
  · exact oidLt_asymm h'
  · rw [h', oidLt_irrefl]

theorem oidLe_of_not_lt {a b : Oid} (h : oidLt a b = false) : oidLe b a = true := by
  rcases oidLt_trichotomy a b with h' | h' | h'
  · rw [h'] at h; exact absurd h (by simp)
  · exact oidLe_iff.mpr (Or.inr h'.symm)
  · exact oidLe_of_lt h'

theorem ne_of_le_of_lt {a b c : Oid} (h1 : oidLe a b = true) (h2 : oidLt b c = true) :
    a ≠ c := oidLt_ne (oidLt_of_le_of_lt h1 h2)

/-! ## Lemmas on the OID prefix relation -/

theorem oidHasBase_refl : ∀ P : Oid, oidHasBase P P = true := by
  intro P
  induction P with
  | nil => rfl
  | cons x xs ih => simp [oidHasBase, ih]

theorem oidHasBase_cons_iff {x y : Nat} {xs ys : List Nat} :
    oidHasBase (x :: xs) (y :: ys) = true ↔ x = y ∧ oidHasBase xs ys = true := by
  simp [oidHasBase, Bool.and_eq_true, beq_iff_eq]

theorem oidHasBase_le : ∀ {P x : Oid}, oidHasBase P x = true → oidLe P x = true := by
  intro P
  induction P with
  | nil =>
    intro x _
    cases x with
    | nil => exact oidLe_refl []
    | cons y ys => exact oidLe_of_lt (by simp [oidLt])
  | cons p ps ih =>
    intro x h
    cases x with
    | nil => exact absurd h (by simp [oidHasBase])
    | cons y ys =>
      obtain ⟨he, h'⟩ := oidHasBase_cons_iff.mp h
      rcases oidLe_iff.mp (ih h') with hlt | heq
      · exact oidLe_of_lt (oidLt_cons_iff.mpr (Or.inr ⟨he, hlt⟩))
      · exact oidLe_iff.mpr (Or.inr (by rw [he, heq]))

theorem oidLe_cons_iff {x y : Nat} {xs ys : List Nat} :
    oidLe (x :: xs) (y :: ys) = true ↔ x < y ∨ (x = y ∧ oidLe xs ys = true) := by
  simp only [oidLe, oidLt, Bool.or_eq_true, Bool.and_eq_true, decide_eq_true_eq,
    beq_iff_eq, List.cons.injEq]
  constructor
  · rintro ((h | ⟨h, h'⟩) | ⟨h, h'⟩)
    · exact Or.inl h
    · exact Or.inr ⟨h, Or.inl h'⟩
    · exact Or.inr ⟨h, Or.inr h'⟩
  · rintro (h | ⟨h, h' | h'⟩)
    · exact Or.inl (Or.inl h)
    · exact Or.inl (Or.inr ⟨h, h'⟩)
    · exact Or.inr ⟨h, h'⟩

theorem oidHasBase_between : ∀ {P a b c : Oid}, oidLe a b = true → oidLe b c = true →
    oidHasBase P a = true → oidHasBase P c = true → oidHasBase P b = true := by
  intro P
  induction P with
  | nil => intro a b c _ _ _ _; rfl
  | cons p ps ih =>
    intro a b c hab hbc ha hc
    cases a with
    | nil => exact absurd ha (by simp [oidHasBase])
    | cons x xs =>
      cases c with
      | nil => exact absurd hc (by simp [oidHasBase])
      | cons z zs =>
        obtain ⟨hpx, ha'⟩ := oidHasBase_cons_iff.mp ha
        obtain ⟨hpz, hc'⟩ := oidHasBase_cons_iff.mp hc
        cases b with
        | nil =>
          rcases oidLe_iff.mp hab with h | h
          · exact absurd h (by simp [oidLt])
          · exact absurd h (by simp)
        | cons y ys =>
          have h1 := oidLe_cons_iff.mp hab
          have h2 := oidLe_cons_iff.mp hbc
          have hxz : x = z := by omega
          have hyx : y = x := by
            rcases h1 with h1 | ⟨h1, _⟩ <;> rcases h2 with h2 | ⟨h2, _⟩ <;> omega
          have hxsys : oidLe xs ys = true := by
            rcases h1 with h1 | ⟨_, h1'⟩
            · exact absurd h1 (by omega)
            · exact h1'
          have hyszs : oidLe ys zs = true := by
            rcases h2 with h2 | ⟨_, h2'⟩
            · exact absurd h2 (by omega)
            · exact h2'
          exact oidHasBase_cons_iff.mpr ⟨by omega, ih hxsys hyszs ha' hc'⟩

theorem oidHasBase_append (P c : Oid) (t : List Nat) (h : oidHasBase P c = true) :
    oidHasBase P (c ++ t) = true := by
  induction P generalizing c with
  | nil => rfl
  | cons p ps ih =>
    cases c with
    | nil => exact absurd h (by simp [oidHasBase])
    | cons x xs =>
      obtain ⟨he, h'⟩ := oidHasBase_cons_iff.mp h
      exact oidHasBase_cons_iff.mpr ⟨he, ih xs h'⟩

theorem oidLt_append_cons (c : Oid) (k : Nat) (t : List Nat) :
    oidLt c (c ++ k :: t) = true := by
  induction c with
  | nil => simp [oidLt]
  | cons x xs ih => exact oidLt_cons_iff.mpr (Or.inr ⟨rfl, ih⟩)

theorem oidHasBase_snoc_inv : ∀ {P x : Oid} {k : Nat},
    oidHasBase P (x ++ [k]) = true → oidHasBase P x = true ∨ P = x ++ [k] := by
  intro P
  induction P with
  | nil => intro x k _; exact Or.inl rfl
  | cons p ps ih =>
    intro x k h
    cases x with
    | nil =>
      simp only [List.nil_append] at h ⊢
      obtain ⟨he, h'⟩ := oidHasBase_cons_iff.mp h
      cases ps with
      | nil => exact Or.inr (by rw [he])
      | cons q qs => exact absurd h' (by simp [oidHasBase])
    | cons y ys =>
      obtain ⟨he, h'⟩ := oidHasBase_cons_iff.mp h
      rcases ih h' with h'' | h''
      · exact Or.inl (oidHasBase_cons_iff.mpr ⟨he, h''⟩)
      · exact Or.inr (by rw [he, h'']; rfl)


theorem not_le_of_lt {a b : Oid} (h : oidLt a b = true) : oidLe b a = false := by
  cases hh : oidLe b a
  · rfl
  · rw [not_lt_of_le hh] at h
    exact absurd h (by simp)

theorem lt_of_not_le {a b : Oid} (h : oidLe a b = false) : oidLt b a = true := by
  rcases oidLt_trichotomy a b with h' | h' | h'
  · rw [oidLe_of_lt h'] at h; exact absurd h (by simp)
  · rw [h', oidLe_refl] at h; exact absurd h (by simp)
  · exact h'

/-! ## Identity of Sort and Uniq on sorted inputs -/

theorem insertBind_of_le {v : VarBind} : ∀ {l : List VarBind},
    (∀ w ∈ l, oidLe v.oid w.oid = true) → insertBind v l = v :: l := by
  intro l h
  cases l with
  | nil => rfl
  | cons w rest => rw [insertBind, if_pos (h w (by simp))]

theorem sortBinds_of_pairwise_le : ∀ {l : List VarBind},
    List.Pairwise (fun u v => oidLe u.oid v.oid = true) l → sortBinds l = l := by
  intro l h
  induction l with
  | nil => rfl
  | cons v rest ih =>
    obtain ⟨hv, htail⟩ := List.pairwise_cons.mp h
    rw [sortBinds, ih htail]
    exact insertBind_of_le hv

theorem uniqBindsFuel_of_ne : ∀ (f : Nat) (l : List VarBind),
    List.Pairwise (fun u v => u.oid ≠ v.oid) l → uniqBindsFuel f l = l := by
  intro f
  induction f with
  | zero =>
    intro l _
    match l with
    | [] => rfl
    | [v] => rfl
    | v :: w :: rest => rfl
  | succ f ih =>
    intro l h
    match l with
    | [] => rfl
    | [v] => rfl
    | v :: w :: rest =>
      obtain ⟨hv, htail⟩ := List.pairwise_cons.mp h
      rw [uniqBindsFuel, if_neg]
      · rw [ih (w :: rest) htail]
      · simp [hv w (by simp)]

theorem uniqBinds_of_pairwise_ne {l : List VarBind}
    (h : List.Pairwise (fun u v => u.oid ≠ v.oid) l) : uniqBinds l = l :=
  uniqBindsFuel_of_ne l.length l h

theorem uniq_sort_of_sorted {l : List VarBind}
    (h : List.Pairwise (fun u v => oidLt u.oid v.oid = true) l) :
    uniqBinds (sortBinds l) = l := by
  rw [sortBinds_of_pairwise_le (h.imp (fun hx => oidLe_of_lt hx))]
  exact uniqBinds_of_pairwise_ne (h.imp (fun hx => oidLt_ne hx))

/-! ## Filters of sorted var-bind lists -/

theorem filter_le_lt_split (c : Oid) : ∀ {l : List VarBind},
    List.Pairwise (fun u v => oidLt u.oid v.oid = true) l →
    l.filter (fun u => oidLe u.oid c) ++ l.filter (fun u => oidLt c u.oid) = l := by
  intro l h
  induction l with
  | nil => rfl
  | cons a rest ih =>
    obtain ⟨ha, htail⟩ := List.pairwise_cons.mp h
    by_cases hc : oidLe a.oid c = true
    · simp only [List.filter_cons]
      rw [if_pos hc, if_neg (by rw [not_lt_of_le hc]; simp), List.cons_append, ih htail]
    · have hgt : oidLt c a.oid = true := lt_of_not_le (by simpa using hc)
      simp only [List.filter_cons]
      rw [if_neg hc, if_pos hgt]
      have h1 : rest.filter (fun u => oidLe u.oid c) = [] := by
        rw [List.filter_eq_nil_iff]
        intro x hx
        rw [not_le_of_lt (oidLt_trans hgt (ha x hx))]
        simp
      have h2 : rest.filter (fun u => oidLt c u.oid) = rest := by
        rw [List.filter_eq_self]
        intro x hx
        exact oidLt_trans hgt (ha x hx)
      rw [h1, h2]
      rfl

theorem filter_base_eq_takeWhile (P c : Oid) (hanchor : oidHasBase P c = true) :
    ∀ {l : List VarBind}, List.Pairwise (fun u v => oidLt u.oid v.oid = true) l →
    (∀ u ∈ l, oidLt c u.oid = true) →
    l.filter (fun u => oidHasBase P u.oid) = l.takeWhile (fun u => oidHasBase P u.oid) := by
  intro l h hgt
  induction l with
  | nil => rfl
  | cons a rest ih =>
    obtain ⟨ha, htail⟩ := List.pairwise_cons.mp h
    by_cases hb : oidHasBase P a.oid = true
    · simp only [List.filter_cons, List.takeWhile_cons]
      rw [if_pos hb, if_pos hb, ih htail (fun u hu => hgt u (by simp [hu]))]
    · simp only [List.filter_cons, List.takeWhile_cons]
      rw [if_neg hb, if_neg hb]
      rw [List.filter_eq_nil_iff]
      intro x hx hbx
      apply hb
      exact oidHasBase_between (oidLe_of_lt (hgt a (by simp)))
        (oidLe_of_lt (ha x hx)) hanchor hbx

theorem takeWhile_take (p : VarBind → Bool) :
    ∀ (l : List VarBind) (k : Nat), (l.take k).takeWhile p = (l.takeWhile p).take k := by
  intro l
  induction l with
  | nil => intro k; simp
  | cons a rest ih =>
    intro k
    cases k with
    | zero => simp
    | succ k =>
      rw [List.take_succ_cons]
      by_cases hp : p a = true
      · simp only [List.takeWhile_cons]
        rw [if_pos hp, if_pos hp, List.take_succ_cons, ih k]
      · simp only [List.takeWhile_cons]
        rw [if_neg hp, if_neg hp, List.take_nil]

/-! ## Last elements of sorted lists -/

theorem getLastD_mem : ∀ (l : List VarBind) (d : VarBind), l ≠ [] → l.getLastD d ∈ l := by
  intro l
  induction l with
  | nil => intro d h; exact absurd rfl h
  | cons a rest ih =>
    intro d _
    rw [List.getLastD_cons]
    cases hr : rest with
    | nil => simp
    | cons b rest' =>
      right
      rw [← hr]
      exact ih a (by simp [hr])

theorem sorted_le_getLastD : ∀ {l : List VarBind},
    List.Pairwise (fun u v => oidLt u.oid v.oid = true) l →
    ∀ (d : VarBind), ∀ x ∈ l, oidLe x.oid ((l.getLastD d).oid) = true := by
  intro l h
  induction l with
  | nil => intro d x hx; exact absurd hx (by simp)
  | cons a rest ih =>
    obtain ⟨ha, htail⟩ := List.pairwise_cons.mp h
    intro d x hx
    rw [List.getLastD_cons]
    cases hr : rest with
    | nil =>
      subst hr
      have : x = a := by simpa using hx
      subst this
      exact oidLe_refl _
    | cons b rest' =>
      rcases (by simpa using hx : x = a ∨ x ∈ rest) with hx' | hx'
      · subst hx'
        have hm : rest.getLastD x ∈ rest := getLastD_mem rest x (by simp [hr])
        rw [← hr]
        exact oidLe_of_lt (ha _ hm)
      · rw [← hr]
        exact ih htail a x hx'

theorem sorted_take_drop_lt {l : List VarBind}
    (h : List.Pairwise (fun u v => oidLt u.oid v.oid = true) l) (k : Nat) :
    ∀ x ∈ l.take k, ∀ y ∈ l.drop k, oidLt x.oid y.oid = true := by
  have h' : List.Pairwise (fun u v => oidLt u.oid v.oid = true) (l.take k ++ l.drop k) := by
    rw [List.take_append_drop]; exact h
  exact fun x hx y hy => (List.pairwise_append.mp h').2.2 x hx y hy

theorem filter_le_take {u : List VarBind}
    (h : List.Pairwise (fun u v => oidLt u.oid v.oid = true) u)
    (k : Nat) (hk : 1 ≤ k) (hlen : k ≤ u.length) (d : VarBind) :
    u.filter (fun x => oidLe x.oid ((u.take k).getLastD d).oid) = u.take k := by
  have htne : u.take k ≠ [] := by
    cases u with
    | nil => simp at hlen; omega
    | cons a rest => cases k with
      | zero => omega
      | succ k => simp
  have hts : List.Pairwise (fun x y => oidLt x.oid y.oid = true) (u.take k) :=
    h.sublist (List.take_sublist k u)
  have h1 : (u.take k).filter (fun x => oidLe x.oid ((u.take k).getLastD d).oid) = u.take k := by
    rw [List.filter_eq_self]
    intro x hx
    exact sorted_le_getLastD hts d x hx
  have h2 : (u.drop k).filter (fun x => oidLe x.oid ((u.take k).getLastD d).oid) = [] := by
    rw [List.filter_eq_nil_iff]
    intro y hy
    have hlast : (u.take k).getLastD d ∈ u.take k := getLastD_mem _ d htne
    rw [not_le_of_lt (sorted_take_drop_lt h k _ hlast y hy)]
    simp
  calc u.filter (fun x => oidLe x.oid ((u.take k).getLastD d).oid)
      = (u.take k ++ u.drop k).filter (fun x => oidLe x.oid ((u.take k).getLastD d).oid) := by
        rw [List.take_append_drop]
    _ = u.take k := by rw [List.filter_append, h1, h2, List.append_nil]

theorem filter_gt_take {u : List VarBind}
    (h : List.Pairwise (fun u v => oidLt u.oid v.oid = true) u)
    (k : Nat) (hk : 1 ≤ k) (hlen : k ≤ u.length) (d : VarBind) :
    u.filter (fun x => oidLt ((u.take k).getLastD d).oid x.oid) = u.drop k := by
  have htne : u.take k ≠ [] := by
    cases u with
    | nil => simp at hlen; omega
    | cons a rest => cases k with
      | zero => omega
      | succ k => simp
  have hts : List.Pairwise (fun x y => oidLt x.oid y.oid = true) (u.take k) :=
    h.sublist (List.take_sublist k u)
  have h1 : (u.take k).filter (fun x => oidLt ((u.take k).getLastD d).oid x.oid) = [] := by
    rw [List.filter_eq_nil_iff]
    intro x hx
    rw [not_lt_of_le (sorted_le_getLastD hts d x hx)]
    simp
  have h2 : (u.drop k).filter (fun x => oidLt ((u.take k).getLastD d).oid x.oid) = u.drop k := by
    rw [List.filter_eq_self]
    intro y hy
    have hlast : (u.take k).getLastD d ∈ u.take k := getLastD_mem _ d htne
    exact sorted_take_drop_lt h k _ hlast y hy
  calc u.filter (fun x => oidLt ((u.take k).getLastD d).oid x.oid)
      = (u.take k ++ u.drop k).filter (fun x => oidLt ((u.take k).getLastD d).oid x.oid) := by
        rw [List.take_append_drop]
    _ = u.drop k := by rw [List.filter_append, h1, h2, List.nil_append]


/-! ## The inner matched loop and exact-match lookup -/

theorem procMatchedGo_append (m1 m2 : List VarBind) :
    ∀ (he : Bool) (ro : Oid) (res : List VarBind),
    procMatchedGo (m1 ++ m2) he ro res =
      procMatchedGo m2 (procMatchedGo m1 he ro res).1
        (procMatchedGo m1 he ro res).2.1 (procMatchedGo m1 he ro res).2.2 := by
  induction m1 with
  | nil => intro he ro res; rfl
  | cons v rest ih =>
    intro he ro res
    simp only [List.cons_append, procMatchedGo]
    by_cases hs : v.vbVariable.isErrSentinel = true
    · rw [if_pos hs, if_pos hs]
      exact ih true ro res
    · rw [if_neg hs, if_neg hs]
      exact ih he v.oid (res ++ [v])

theorem procMatchedGo_clean (m : List VarBind)
    (hm : ∀ v ∈ m, v.vbVariable.isErrSentinel = false) :
    ∀ (he : Bool) (ro : Oid) (res : List VarBind),
    procMatchedGo m he ro res = (he, (m.map (fun v => v.oid)).getLastD ro, res ++ m) := by
  induction m with
  | nil => intro he ro res; simp [procMatchedGo]
  | cons v rest ih =>
    intro he ro res
    rw [procMatchedGo, if_neg (by rw [hm v (by simp)]; simp)]
    rw [ih (fun w hw => hm w (by simp [hw])) he v.oid (res ++ [v])]
    rw [List.map_cons, List.getLastD_cons, List.append_assoc, List.singleton_append]

theorem procMatchedGo_sentinel_end (m : List VarBind) (s : VarBind)
    (hm : ∀ v ∈ m, v.vbVariable.isErrSentinel = false)
    (hs : s.vbVariable.isErrSentinel = true) (he : Bool) (ro : Oid) (res : List VarBind) :
    procMatchedGo (m ++ [s]) he ro res =
      (true, (m.map (fun v => v.oid)).getLastD ro, res ++ m) := by
  rw [procMatchedGo_append, procMatchedGo_clean m hm]
  simp [procMatchedGo, hs]

theorem matchOid_none {res : List VarBind} {t : Oid}
    (h : ∀ u ∈ res, u.oid ≠ t) : matchOid res t = none := by
  rw [matchOid, List.find?_eq_none]
  intro x hx
  simp [h x hx]

theorem filter_swap (p q : VarBind → Bool) (l : List VarBind) :
    (l.filter p).filter q = (l.filter q).filter p := by
  induction l with
  | nil => rfl
  | cons a rest ih =>
    by_cases hp : p a = true <;> by_cases hq : q a = true <;>
      simp [List.filter_cons, hp, hq, ih]

/-! ## The agent's view of one GetBulkRequest issued by the walk -/

theorem query_sim (mib : List VarBind) (c : Oid) (k : Int)
    (hk1 : 1 ≤ k) (hkmax : k ≤ maxInt32) :
    getBulkRequestF .V2c (simAgentTransport mib) [c] 0 k =
      .ok ⟨.getResponse, 0, 0, 0, simAgentBulk mib c k⟩ := by
  unfold getBulkRequestF
  rw [if_neg (by decide), if_neg (by decide), if_neg (by rintro (h | h) <;> omega)]
  rfl

theorem simAgentSucc_sorted {mib : List VarBind}
    (h : List.Pairwise (fun u v => oidLt u.oid v.oid = true) mib) (c : Oid) :
    List.Pairwise (fun u v => oidLt u.oid v.oid = true) (simAgentSucc mib c) :=
  h.sublist (List.filter_sublist mib)

theorem simAgentSucc_mem {mib : List VarBind} {c : Oid} {u : VarBind} :
    u ∈ simAgentSucc mib c ↔ u ∈ mib ∧ oidLt c u.oid = true := by
  simp [simAgentSucc, List.mem_filter]


theorem walkLoop_step_done (query : List Oid → Int → Int → Except SnmpError Pdu)
    (k : Int) (n : Nat) (P c : Oid) (res res' : List VarBind) (pdu : Pdu)
    (hq : query [c] 0 k = .ok pdu) (hst : pdu.errorStatus = 0)
    (hp : processPos ((pdu.varBinds.length : Int) == 1 * k) k
            (uniqBinds (sortBinds pdu.varBinds)) res P c = (none, res')) :
    walkLoop query k (n + 1) ⟨[P], [c], 0, [], res⟩ =
      .ok (newPduWithVarBinds .getResponse (uniqBinds (sortBinds res'))) := by
  conv_lhs => rw [walkLoop]
  rw [if_neg (by simp)]
  simp only [hq, hst, noError, noSuchName, ne_eq, not_true_eq_false, false_and, if_false]
  simp only [gt_iff_lt, lt_self_iff_false, false_and, if_false, ite_false]
  simp only [List.length_cons, List.length_nil, List.zip_cons_cons, List.zip_nil_right,
    processAllPos, Nat.zero_add, Nat.cast_one, hp]
  simp only [List.filterMap_cons, Option.map_none', List.filterMap_nil, List.map_nil]
  rw [walkLoop.eq_def]
  simp

theorem walkLoop_step_continue (query : List Oid → Int → Int → Except SnmpError Pdu)
    (k : Int) (n : Nat) (P c c1 : Oid) (res res' : List VarBind) (pdu : Pdu)
    (hq : query [c] 0 k = .ok pdu) (hst : pdu.errorStatus = 0)
    (hp : processPos ((pdu.varBinds.length : Int) == 1 * k) k
            (uniqBinds (sortBinds pdu.varBinds)) res P c = (some c1, res')) :
    walkLoop query k (n + 1) ⟨[P], [c], 0, [], res⟩ =
      walkLoop query k n ⟨[P], [c1], 0, [], res'⟩ := by
  conv_lhs => rw [walkLoop]
  rw [if_neg (by simp)]
  simp only [hq, hst, noError, noSuchName, ne_eq, not_true_eq_false, false_and, if_false]
  simp only [gt_iff_lt, lt_self_iff_false, false_and, if_false, ite_false]
  simp only [List.length_cons, List.length_nil, List.zip_cons_cons, List.zip_nil_right,
    processAllPos, Nat.zero_add, Nat.cast_one, hp]
  simp only [List.filterMap_cons, Option.map_some', List.filterMap_nil, List.map_cons,
    List.map_nil]


theorem getLastD_map (f : VarBind → Oid) :
    ∀ (l : List VarBind) (d : VarBind), (l.map f).getLastD (f d) = f (l.getLastD d) := by
  intro l
  induction l with
  | nil => intro d; rfl
  | cons a rest ih =>
    intro d
    rw [List.map_cons, List.getLastD_cons, List.getLastD_cons, ih a]

theorem getLastD_congr : ∀ (l : List VarBind), l ≠ [] →
    ∀ (d1 d2 : VarBind), l.getLastD d1 = l.getLastD d2 := by
  intro l
  induction l with
  | nil => intro h; exact absurd rfl h
  | cons a rest ih =>
    intro _ d1 d2
    rw [List.getLastD_cons, List.getLastD_cons]


theorem getLastD_snoc : ∀ (l : List VarBind) (a d : VarBind), (l ++ [a]).getLastD d = a := by
  intro l
  induction l with
  | nil => intro a d; rfl
  | cons x rest ih =>
    intro a d
    rw [List.cons_append, List.getLastD_cons, ih]

theorem processPos_sim (mib : List VarBind) (P c : Oid) (res : List VarBind) (k : Int)
    (hk1 : 1 ≤ k)
    (hsort : List.Pairwise (fun u v => oidLt u.oid v.oid = true) mib)
    (hnos : ∀ vb ∈ mib, vb.vbVariable.isErrSentinel = false)
    (hbase : oidHasBase P c = true)
    (hres : res = (mib.filter (fun x => oidHasBase P x.oid)).filter
        (fun x => oidLe x.oid c)) :
    processPos (((simAgentBulk mib c k).length : Int) == 1 * k) k
        (uniqBinds (sortBinds (simAgentBulk mib c k))) res P c =
      (none, mib.filter (fun x => oidHasBase P x.oid)) ∨
    (∃ c1, processPos (((simAgentBulk mib c k).length : Int) == 1 * k) k
        (uniqBinds (sortBinds (simAgentBulk mib c k))) res P c =
      (some c1, (mib.filter (fun x => oidHasBase P x.oid)).filter
          (fun x => oidLe x.oid c1)) ∧
      oidHasBase P c1 = true ∧
      ((mib.filter (fun x => oidHasBase P x.oid)).filter
          (fun x => oidLt c1 x.oid)).length <
        ((mib.filter (fun x => oidHasBase P x.oid)).filter
          (fun x => oidLt c x.oid)).length) := by
  have hk0 : (0 : Int) ≤ k := by omega
  have hK : ((k.toNat : Nat) : Int) = k := Int.toNat_of_nonneg hk0
  have hKpos : 1 ≤ k.toNat := by omega
  -- abbreviations
  have hssorted : List.Pairwise (fun x y => oidLt x.oid y.oid = true) (simAgentSucc mib c) :=
    simAgentSucc_sorted hsort c
  have hsgt : ∀ x ∈ simAgentSucc mib c, oidLt c x.oid = true :=
    fun x hx => (simAgentSucc_mem.mp hx).2
  have hsmem : ∀ x ∈ simAgentSucc mib c, x ∈ mib :=
    fun x hx => (simAgentSucc_mem.mp hx).1
  have husorted : List.Pairwise (fun x y => oidLt x.oid y.oid = true)
      (mib.filter (fun x => oidHasBase P x.oid)) := hsort.filter _
  have huncol : (simAgentSucc mib c).filter (fun x => oidHasBase P x.oid) =
      (mib.filter (fun x => oidHasBase P x.oid)).filter (fun x => oidLt c x.oid) :=
    filter_swap _ _ mib
  have hsplit : res ++ (mib.filter (fun x => oidHasBase P x.oid)).filter
      (fun x => oidLt c x.oid) = mib.filter (fun x => oidHasBase P x.oid) := by
    rw [hres]
    exact filter_le_lt_split c husorted
  have hresmem : ∀ x ∈ res, oidLe x.oid c = true := by
    rw [hres]
    intro x hx
    exact (List.mem_filter.mp hx).2
  have huncolsorted : List.Pairwise (fun x y => oidLt x.oid y.oid = true)
      ((mib.filter (fun x => oidHasBase P x.oid)).filter (fun x => oidLt c x.oid)) :=
    husorted.filter _
  have huncolgt : ∀ x ∈ (mib.filter (fun x => oidHasBase P x.oid)).filter
      (fun x => oidLt c x.oid), oidLt c x.oid = true := by
    intro x hx
    exact (List.mem_filter.mp hx).2
  have huncolbase : ∀ x ∈ (mib.filter (fun x => oidHasBase P x.oid)).filter
      (fun x => oidLt c x.oid), oidHasBase P x.oid = true := by
    intro x hx
    exact (List.mem_filter.mp (List.mem_of_mem_filter hx)).2
  have huncolmib : ∀ x ∈ (mib.filter (fun x => oidHasBase P x.oid)).filter
      (fun x => oidLt c x.oid), x ∈ mib := by
    intro x hx
    exact List.mem_of_mem_filter (List.mem_of_mem_filter hx)
  by_cases hcase : ((simAgentSucc mib c).length : Int) ≥ k
  · -- case A: the answer is the first k successors
    have hr : simAgentBulk mib c k = (simAgentSucc mib c).take k.toNat := by
      rw [simAgentBulk, if_pos hcase]
    have hKlen : k.toNat ≤ (simAgentSucc mib c).length := by omega
    have hrsorted : List.Pairwise (fun x y => oidLt x.oid y.oid = true)
        ((simAgentSucc mib c).take k.toNat) :=
      hssorted.sublist (List.take_sublist _ _)
    have hvbs : uniqBinds (sortBinds (simAgentBulk mib c k)) = simAgentBulk mib c k := by
      rw [hr]
      exact uniq_sort_of_sorted hrsorted
    have hrlen : ((simAgentBulk mib c k).length : Int) = k := by
      rw [hr, List.length_take]
      omega
    have hfilled : (((simAgentBulk mib c k).length : Int) == 1 * k) = true := by
      rw [hrlen, one_mul]
      simp
    -- matched is the first k uncollected under-P binds
    have hmatched : matchBaseOids (uniqBinds (sortBinds (simAgentBulk mib c k))) P =
        ((mib.filter (fun x => oidHasBase P x.oid)).filter
          (fun x => oidLt c x.oid)).take k.toNat := by
      rw [hvbs, hr, matchBaseOids]
      rw [filter_base_eq_takeWhile P c hbase hrsorted
        (fun x hx => hsgt x (List.mem_of_mem_take hx))]
      rw [takeWhile_take]
      rw [← filter_base_eq_takeWhile P c hbase hssorted hsgt]
      rw [huncol]
    by_cases hj : k.toNat ≤ ((mib.filter (fun x => oidHasBase P x.oid)).filter
        (fun x => oidLt c x.oid)).length
    · -- a full window of k under-P binds is returned: the walk continues
      right
      have hwlen : (((mib.filter (fun x => oidHasBase P x.oid)).filter
          (fun x => oidLt c x.oid)).take k.toNat).length = k.toNat := by
        rw [List.length_take]
        omega
      have hwne : ((mib.filter (fun x => oidHasBase P x.oid)).filter
          (fun x => oidLt c x.oid)).take k.toNat ≠ [] := by
        intro hnil
        rw [hnil] at hwlen
        simp at hwlen
        omega
      have hlastmem : (((mib.filter (fun x => oidHasBase P x.oid)).filter
          (fun x => oidLt c x.oid)).take k.toNat).getLastD
            { oid := c, vbVariable := .vNull } ∈
          ((mib.filter (fun x => oidHasBase P x.oid)).filter
            (fun x => oidLt c x.oid)).take k.toNat :=
        getLastD_mem _ _ hwne
      have hlastuncol : (((mib.filter (fun x => oidHasBase P x.oid)).filter
          (fun x => oidLt c x.oid)).take k.toNat).getLastD
            { oid := c, vbVariable := .vNull } ∈
          (mib.filter (fun x => oidHasBase P x.oid)).filter (fun x => oidLt c x.oid) :=
        List.mem_of_mem_take hlastmem
      have hc1gt : oidLt c ((((mib.filter (fun x => oidHasBase P x.oid)).filter
          (fun x => oidLt c x.oid)).take k.toNat).getLastD
            { oid := c, vbVariable := .vNull }).oid = true :=
        huncolgt _ hlastuncol
      have hc1base : oidHasBase P ((((mib.filter (fun x => oidHasBase P x.oid)).filter
          (fun x => oidLt c x.oid)).take k.toNat).getLastD
            { oid := c, vbVariable := .vNull }).oid = true :=
        huncolbase _ hlastuncol
      refine ⟨_, ?_, hc1base, ?_⟩
      · -- compute processPos
        unfold processPos
        simp only [hmatched]
        rw [if_neg (by rw [hwlen]; omega)]
        rw [getLastD_congr _ hwne { oid := [], vbVariable := .vNull }
          { oid := c, vbVariable := .vNull }]
        rw [matchOid_none (fun x hx => ne_of_le_of_lt (hresmem x hx) hc1gt)]
        simp only [Option.isSome_none, Bool.false_eq_true, if_false]
        rw [procMatchedGo_clean _ (fun v hv => hnos v (huncolmib v (List.mem_of_mem_take hv)))]
        rw [show ((((mib.filter (fun x => oidHasBase P x.oid)).filter
            (fun x => oidLt c x.oid)).take k.toNat).map (fun v => v.oid)).getLastD c =
            ((((mib.filter (fun x => oidHasBase P x.oid)).filter
            (fun x => oidLt c x.oid)).take k.toNat).getLastD
              { oid := c, vbVariable := .vNull }).oid from
          getLastD_map (fun v => v.oid)
            (((mib.filter (fun x => oidHasBase P x.oid)).filter
              (fun x => oidLt c x.oid)).take k.toNat)
            { oid := c, vbVariable := .vNull }]
        rw [if_neg (by
          rintro (h | ⟨-, h⟩)
          · exact absurd h (by simp)
          · rw [hwlen] at h
            omega)]
        -- the collected result equals the filter up to the new cursor
        have hresfil : res.filter (fun x => oidLe x.oid
            ((((mib.filter (fun x => oidHasBase P x.oid)).filter
              (fun x => oidLt c x.oid)).take k.toNat).getLastD
                { oid := c, vbVariable := .vNull }).oid) = res := by
          rw [List.filter_eq_self]
          intro x hx
          exact oidLe_trans (hresmem x hx) (oidLe_of_lt hc1gt)
        have huncolfil := filter_le_take huncolsorted k.toNat hKpos hj
          { oid := c, vbVariable := .vNull }
        have e2 : (mib.filter (fun x => oidHasBase P x.oid)).filter
            (fun x => oidLe x.oid ((((mib.filter (fun x => oidHasBase P x.oid)).filter
              (fun x => oidLt c x.oid)).take k.toNat).getLastD
                { oid := c, vbVariable := .vNull }).oid) =
            (res ++ (mib.filter (fun x => oidHasBase P x.oid)).filter
              (fun x => oidLt c x.oid)).filter
            (fun x => oidLe x.oid ((((mib.filter (fun x => oidHasBase P x.oid)).filter
              (fun x => oidLt c x.oid)).take k.toNat).getLastD
                { oid := c, vbVariable := .vNull }).oid) := by
          rw [hsplit]
        rw [e2, List.filter_append, hresfil, huncolfil]
      · -- the number of uncollected binds strictly decreases
        have hresnil : res.filter (fun x => oidLt
            ((((mib.filter (fun x => oidHasBase P x.oid)).filter
              (fun x => oidLt c x.oid)).take k.toNat).getLastD
                { oid := c, vbVariable := .vNull }).oid x.oid) = [] := by
          rw [List.filter_eq_nil_iff]
          intro x hx
          rw [not_lt_of_le (oidLe_trans (hresmem x hx) (oidLe_of_lt hc1gt))]
          simp
        have huncoldrop := filter_gt_take huncolsorted k.toNat hKpos hj
          { oid := c, vbVariable := .vNull }
        have e3 : (mib.filter (fun x => oidHasBase P x.oid)).filter
            (fun x => oidLt ((((mib.filter (fun x => oidHasBase P x.oid)).filter
              (fun x => oidLt c x.oid)).take k.toNat).getLastD
                { oid := c, vbVariable := .vNull }).oid x.oid) =
            (res ++ (mib.filter (fun x => oidHasBase P x.oid)).filter
              (fun x => oidLt c x.oid)).filter
            (fun x => oidLt ((((mib.filter (fun x => oidHasBase P x.oid)).filter
              (fun x => oidLt c x.oid)).take k.toNat).getLastD
                { oid := c, vbVariable := .vNull }).oid x.oid) := by
          rw [hsplit]
        rw [e3, List.filter_append, hresnil, huncoldrop, List.nil_append, List.length_drop]
        omega
    · -- fewer than k under-P binds remain: the subtree is exhausted here
      left
      have htake : ((mib.filter (fun x => oidHasBase P x.oid)).filter
          (fun x => oidLt c x.oid)).take k.toNat =
          (mib.filter (fun x => oidHasBase P x.oid)).filter (fun x => oidLt c x.oid) :=
        List.take_of_length_le (by omega)
      by_cases hnil : (mib.filter (fun x => oidHasBase P x.oid)).filter
          (fun x => oidLt c x.oid) = []
      · unfold processPos
        simp only [hmatched, htake, hnil, List.take_nil, List.length_nil]
        rw [if_pos trivial]
        rw [show res = mib.filter (fun x => oidHasBase P x.oid) from by
          rw [← hsplit, hnil, List.append_nil]]
      · have hlastmem : (((mib.filter (fun x => oidHasBase P x.oid)).filter
            (fun x => oidLt c x.oid)).getLastD { oid := c, vbVariable := .vNull }) ∈
            (mib.filter (fun x => oidHasBase P x.oid)).filter (fun x => oidLt c x.oid) :=
          getLastD_mem _ _ hnil
        have hc1gt : oidLt c ((((mib.filter (fun x => oidHasBase P x.oid)).filter
            (fun x => oidLt c x.oid)).getLastD { oid := c, vbVariable := .vNull })).oid = true :=
          huncolgt _ hlastmem
        unfold processPos
        simp only [hmatched, htake]
        rw [if_neg (by
          intro hlen
          exact hnil (List.length_eq_zero.mp hlen))]
        rw [getLastD_congr _ hnil { oid := [], vbVariable := .vNull }
          { oid := c, vbVariable := .vNull }]
        rw [matchOid_none (fun x hx => ne_of_le_of_lt (hresmem x hx) hc1gt)]
        simp only [Option.isSome_none, Bool.false_eq_true, if_false]
        rw [procMatchedGo_clean _ (fun v hv => hnos v (huncolmib v hv))]
        rw [if_pos (Or.inr ⟨hfilled, by omega⟩)]
        rw [show res ++ (mib.filter (fun x => oidHasBase P x.oid)).filter
            (fun x => oidLt c x.oid) = mib.filter (fun x => oidHasBase P x.oid) from hsplit]
  · -- case B: the MIB is exhausted within this window; the agent appends EndOfMibView
    have hr : simAgentBulk mib c k = simAgentSucc mib c ++
        [{ oid := ((simAgentSucc mib c).getLastD { oid := c, vbVariable := .vNull }).oid ++ [0],
           vbVariable := .endOfMibView }] := by
      rw [simAgentBulk, if_neg hcase]
    have hslen : (simAgentSucc mib c).length < k.toNat := by omega
    have hlastle : oidLe c
        ((simAgentSucc mib c).getLastD { oid := c, vbVariable := .vNull }).oid = true := by
      by_cases hs : simAgentSucc mib c = []
      · rw [hs]
        exact oidLe_refl c
      · exact oidLe_of_lt (hsgt _ (getLastD_mem _ _ hs))
    have hsentgt : oidLt c
        (((simAgentSucc mib c).getLastD { oid := c, vbVariable := .vNull }).oid ++ [0]) = true :=
      oidLt_of_le_of_lt hlastle (oidLt_append_cons _ 0 [])
    have hrsorted : List.Pairwise (fun x y => oidLt x.oid y.oid = true)
        (simAgentSucc mib c ++
          [{ oid := ((simAgentSucc mib c).getLastD { oid := c, vbVariable := .vNull }).oid ++ [0],
             vbVariable := .endOfMibView }]) := by
      rw [List.pairwise_append]
      refine ⟨hssorted, List.pairwise_singleton _ _, ?_⟩
      intro x hx y hy
      rw [List.mem_singleton] at hy
      subst hy
      exact oidLt_of_le_of_lt
        (sorted_le_getLastD hssorted { oid := c, vbVariable := .vNull } x hx)
        (oidLt_append_cons _ 0 [])
    have hvbs : uniqBinds (sortBinds (simAgentBulk mib c k)) = simAgentBulk mib c k := by
      rw [hr]
      exact uniq_sort_of_sorted hrsorted
    by_cases hbs : oidHasBase P
        (((simAgentSucc mib c).getLastD { oid := c, vbVariable := .vNull }).oid ++ [0]) = true
    · -- the sentinel lies under the base: hasError terminates the position
      left
      have hmatchedB : matchBaseOids (uniqBinds (sortBinds (simAgentBulk mib c k))) P =
          (mib.filter (fun x => oidHasBase P x.oid)).filter (fun x => oidLt c x.oid) ++
          [{ oid := ((simAgentSucc mib c).getLastD { oid := c, vbVariable := .vNull }).oid ++ [0],
             vbVariable := .endOfMibView }] := by
        rw [hvbs, hr, matchBaseOids, List.filter_append, huncol, List.filter_cons,
          if_pos hbs, List.filter_nil]
      have hgl : ((mib.filter (fun x => oidHasBase P x.oid)).filter (fun x => oidLt c x.oid) ++
          [({ oid := ((simAgentSucc mib c).getLastD
                { oid := c, vbVariable := .vNull }).oid ++ [0],
              vbVariable := .endOfMibView } : VarBind)]).getLastD
            { oid := [], vbVariable := .vNull } =
          ({ oid := ((simAgentSucc mib c).getLastD
                { oid := c, vbVariable := .vNull }).oid ++ [0],
             vbVariable := .endOfMibView } : VarBind) :=
        getLastD_snoc _ _ _
      unfold processPos
      simp only [hmatchedB]
      rw [if_neg (by simp)]
      rw [hgl]
      rw [matchOid_none (fun x hx => ne_of_le_of_lt (hresmem x hx) hsentgt)]
      simp only [Option.isSome_none, Bool.false_eq_true, if_false]
      rw [procMatchedGo_sentinel_end
        ((mib.filter (fun x => oidHasBase P x.oid)).filter (fun x => oidLt c x.oid))
        ({ oid := ((simAgentSucc mib c).getLastD
              { oid := c, vbVariable := .vNull }).oid ++ [0],
           vbVariable := .endOfMibView } : VarBind)
        (fun v hv => hnos v (huncolmib v hv)) rfl]
      rw [if_pos (Or.inl rfl)]
      rw [show res ++ (mib.filter (fun x => oidHasBase P x.oid)).filter
          (fun x => oidLt c x.oid) = mib.filter (fun x => oidHasBase P x.oid) from hsplit]
    · -- the sentinel is outside the base
      have hmatchedB : matchBaseOids (uniqBinds (sortBinds (simAgentBulk mib c k))) P =
          (mib.filter (fun x => oidHasBase P x.oid)).filter (fun x => oidLt c x.oid) := by
        rw [hvbs, hr, matchBaseOids, List.filter_append, huncol, List.filter_cons,
          if_neg hbs, List.filter_nil, List.append_nil]
      by_cases hnil : (mib.filter (fun x => oidHasBase P x.oid)).filter
          (fun x => oidLt c x.oid) = []
      · left
        unfold processPos
        simp only [hmatchedB, hnil, List.length_nil]
        rw [if_pos trivial]
        rw [show res = mib.filter (fun x => oidHasBase P x.oid) from by
          rw [← hsplit, hnil, List.append_nil]]
      · -- some under-P binds were returned and the subtree is exhausted
        have hlastmem : (((mib.filter (fun x => oidHasBase P x.oid)).filter
            (fun x => oidLt c x.oid)).getLastD { oid := c, vbVariable := .vNull }) ∈
            (mib.filter (fun x => oidHasBase P x.oid)).filter (fun x => oidLt c x.oid) :=
          getLastD_mem _ _ hnil
        have hc1gt : oidLt c ((((mib.filter (fun x => oidHasBase P x.oid)).filter
            (fun x => oidLt c x.oid)).getLastD
              { oid := c, vbVariable := .vNull })).oid = true :=
          huncolgt _ hlastmem
        have hc1base : oidHasBase P ((((mib.filter (fun x => oidHasBase P x.oid)).filter
            (fun x => oidLt c x.oid)).getLastD
              { oid := c, vbVariable := .vNull })).oid = true :=
          huncolbase _ hlastmem
        have huall : ∀ x ∈ mib.filter (fun x => oidHasBase P x.oid),
            oidLe x.oid ((((mib.filter (fun x => oidHasBase P x.oid)).filter
              (fun x => oidLt c x.oid)).getLastD
                { oid := c, vbVariable := .vNull })).oid = true := by
          intro x hx
          rw [← hsplit] at hx
          rcases List.mem_append.mp hx with hx' | hx'
          · exact oidLe_trans (hresmem x hx') (oidLe_of_lt hc1gt)
          · exact sorted_le_getLastD huncolsorted { oid := c, vbVariable := .vNull } x hx'
        have hres_u : res ++ (mib.filter (fun x => oidHasBase P x.oid)).filter
            (fun x => oidLt c x.oid) =
            (mib.filter (fun x => oidHasBase P x.oid)).filter
              (fun x => oidLe x.oid ((((mib.filter (fun x => oidHasBase P x.oid)).filter
                (fun x => oidLt c x.oid)).getLastD
                  { oid := c, vbVariable := .vNull })).oid) := by
          rw [hsplit]
          exact (List.filter_eq_self.mpr huall).symm
        have hlenlt : (((mib.filter (fun x => oidHasBase P x.oid)).filter
            (fun x => oidLt c x.oid)).length : Int) < k := by
          have h1 : ((mib.filter (fun x => oidHasBase P x.oid)).filter
              (fun x => oidLt c x.oid)).length ≤ (simAgentSucc mib c).length := by
            rw [← huncol]
            exact List.length_filter_le _ _
          omega
        unfold processPos
        simp only [hmatchedB]
        rw [if_neg (by
          intro hlen
          exact hnil (List.length_eq_zero.mp hlen))]
        rw [getLastD_congr _ hnil { oid := [], vbVariable := .vNull }
          { oid := c, vbVariable := .vNull }]
        rw [matchOid_none (fun x hx => ne_of_le_of_lt (hresmem x hx) hc1gt)]
        simp only [Option.isSome_none, Bool.false_eq_true, if_false]
        rw [procMatchedGo_clean _ (fun v hv => hnos v (huncolmib v hv))]
        rw [show ((((mib.filter (fun x => oidHasBase P x.oid)).filter
            (fun x => oidLt c x.oid)).map (fun v => v.oid)).getLastD c) =
            ((((mib.filter (fun x => oidHasBase P x.oid)).filter
            (fun x => oidLt c x.oid)).getLastD
              { oid := c, vbVariable := .vNull })).oid from
          getLastD_map (fun v => v.oid)
            ((mib.filter (fun x => oidHasBase P x.oid)).filter (fun x => oidLt c x.oid))
            { oid := c, vbVariable := .vNull }]
        by_cases hfill : (((simAgentBulk mib c k).length : Int) == 1 * k) = true
        · left
          rw [if_pos (Or.inr ⟨hfill, hlenlt⟩)]
          rw [show res ++ (mib.filter (fun x => oidHasBase P x.oid)).filter
              (fun x => oidLt c x.oid) = mib.filter (fun x => oidHasBase P x.oid) from hsplit]
        · right
          refine ⟨_, ?_, hc1base, ?_⟩
          · rw [if_neg (by
              rintro (h | ⟨h, -⟩)
              · exact absurd h (by simp)
              · exact hfill h)]
            rw [hres_u]
          · have hzero : (mib.filter (fun x => oidHasBase P x.oid)).filter
                (fun x => oidLt ((((mib.filter (fun x => oidHasBase P x.oid)).filter
                  (fun x => oidLt c x.oid)).getLastD
                    { oid := c, vbVariable := .vNull })).oid x.oid) = [] := by
              rw [List.filter_eq_nil_iff]
              intro x hx
              rw [not_lt_of_le (huall x hx)]
              simp
            rw [hzero]
            have : 0 < ((mib.filter (fun x => oidHasBase P x.oid)).filter
                (fun x => oidLt c x.oid)).length := List.length_pos.mpr hnil
            simpa using this


theorem oidLe_antisymm {a b : Oid} (h1 : oidLe a b = true) (h2 : oidLe b a = true) : a = b := by
  rcases oidLe_iff.mp h1 with h | h
  · rw [not_lt_of_le h2] at h
    exact absurd h (by simp)
  · exact h

/-- The walk loop of `GetBulkWalk`, driven by the simulated agent on a single
subtree request, terminates with exactly the agent's under-`P` var-binds. -/
theorem walkLoop_sim_complete (mib : List VarBind) (P : Oid) (k : Int)
    (hk1 : 1 ≤ k) (hkmax : k ≤ maxInt32)
    (hsort : List.Pairwise (fun u v => oidLt u.oid v.oid = true) mib)
    (hnos : ∀ vb ∈ mib, vb.vbVariable.isErrSentinel = false) :
    ∀ (n : Nat) (c : Oid) (res : List VarBind),
      oidHasBase P c = true →
      res = (mib.filter (fun x => oidHasBase P x.oid)).filter (fun x => oidLe x.oid c) →
      ((mib.filter (fun x => oidHasBase P x.oid)).filter
        (fun x => oidLt c x.oid)).length ≤ n →
      walkLoop (getBulkRequestF .V2c (simAgentTransport mib)) k (n + 1)
        ⟨[P], [c], 0, [], res⟩ =
        .ok (newPduWithVarBinds .getResponse
          (mib.filter (fun x => oidHasBase P x.oid))) := by
  intro n
  induction n using Nat.strong_induction_on with
  | _ n ih =>
    intro c res hbase hres hlen
    have hq := query_sim mib c k hk1 hkmax
    rcases processPos_sim mib P c res k hk1 hsort hnos hbase hres with
      hdone | ⟨c1, hcont, hc1base, hdec⟩
    · rw [walkLoop_step_done (getBulkRequestF .V2c (simAgentTransport mib)) k n P c res
        (mib.filter (fun x => oidHasBase P x.oid))
        ⟨.getResponse, 0, 0, 0, simAgentBulk mib c k⟩ hq rfl hdone]
      rw [uniq_sort_of_sorted (hsort.filter _)]
    · rw [walkLoop_step_continue (getBulkRequestF .V2c (simAgentTransport mib)) k n P c c1
        res ((mib.filter (fun x => oidHasBase P x.oid)).filter (fun x => oidLe x.oid c1))
        ⟨.getResponse, 0, 0, 0, simAgentBulk mib c k⟩ hq rfl hcont]
      obtain ⟨m, rfl⟩ : ∃ m, n = m + 1 := ⟨n - 1, by omega⟩
      exact ih m (by omega) c1 _ hc1base rfl (by omega)

/-- C1: against the simulated agent over any finite MIB (sorted, free of
duplicate OIDs and response sentinels, and without a bind at exactly `P`),
`GetBulkWalk([P], 0, k)` for `k ∈ {1, 5, 100}` returns a Response PDU whose
var-bind list is exactly the agent's var-binds under the prefix `P` —
already sorted by OID and duplicate-free, being a filter of the sorted MIB —
i.e. the non-repeater binds (none here) concatenated with the sorted,
uniqued repeater binds. -/
theorem c1_getBulkWalk_completeness (mib : List VarBind) (P : Oid) (k : Int)
    (hk : k = 1 ∨ k = 5 ∨ k = 100)
    (hsort : List.Pairwise (fun u v => oidLt u.oid v.oid = true) mib)
    (hnos : ∀ vb ∈ mib, vb.vbVariable.isErrSentinel = false)
    (hnoP : ∀ vb ∈ mib, vb.oid ≠ P) :
    getBulkWalk .V2c (simAgentTransport mib) [P] 0 k (mib.length + 2) =
      .ok (newPduWithVarBinds .getResponse
        (mib.filter (fun x => oidHasBase P x.oid))) := by
  have hk1 : 1 ≤ k := by rcases hk with h | h | h <;> omega
  have hkmax : k ≤ maxInt32 := by rcases hk with h | h | h <;> subst h <;> decide
  have hres0 : ([] : List VarBind) =
      (mib.filter (fun x => oidHasBase P x.oid)).filter (fun x => oidLe x.oid P) := by
    symm
    rw [List.filter_eq_nil_iff]
    intro x hx hle
    have hxbase : oidHasBase P x.oid = true := (List.mem_filter.mp hx).2
    have hxe : x.oid = P := oidLe_antisymm hle (oidHasBase_le hxbase)
    exact hnoP x (List.mem_of_mem_filter hx) hxe
  have hbound : ((mib.filter (fun x => oidHasBase P x.oid)).filter
      (fun x => oidLt P x.oid)).length ≤ mib.length + 1 := by
    have h1 := List.length_filter_le (fun x => oidLt P x.oid)
      (mib.filter (fun x => oidHasBase P x.oid))
    have h2 := List.length_filter_le (fun x => oidHasBase P x.oid) mib
    omega
  have hmain := walkLoop_sim_complete mib P k hk1 hkmax hsort hnos
    (mib.length + 1) P [] (oidHasBase_refl P) hres0 hbound
  rw [getBulkWalk, if_neg (by simp)]
  exact hmain

/-- Witness for C1: the completeness theorem applied to the concrete MIB
`mibC1`, prefix `[1,3]` and `k = 1`. -/
theorem c1_witness :
    List.Pairwise (fun u v => oidLt u.oid v.oid = true) mibC1 ∧
    (∀ vb ∈ mibC1, vb.vbVariable.isErrSentinel = false) ∧
    (∀ vb ∈ mibC1, vb.oid ≠ [1, 3]) ∧
    getBulkWalk .V2c (simAgentTransport mibC1) [[1, 3]] 0 1 (mibC1.length + 2) =
      .ok (newPduWithVarBinds .getResponse
        (mibC1.filter (fun x => oidHasBase [1, 3] x.oid))) :=
  ⟨by decide, by decide, by decide,
   c1_getBulkWalk_completeness mibC1 [1, 3] 1 (Or.inl rfl) (by decide) (by decide)
     (by decide)⟩

end Snmpgo
